import Mathlib

/-!
Shallow embedding of the agent-link workflow execution engine
(`src/app/store/workflowStore.ts`, first document: `executeAgent`,
`startWorkflow`, `stopWorkflow`) and of the custom LLM provider route
(`src/unnamed/part_004`: `replaceTemplateVars`, `buildRequestUrl`,
`buildRequestHeaders`, the `POST` handler), together with theorems that
settle the specification claims about them.

Modelling conventions:
* machine integers are `Nat`/`Int`; JS `null`/`undefined` is `Option`;
  thrown JS errors are `Except.error` carrying the error message;
* wall-clock quantities (`Date.now()` timestamps, `executionTime`) are
  outside the embedding and are omitted from the result records;
* the HTTP boundary (`fetch`) is a stub `Nat → FetchResp` indexed by the
  number of fetches issued so far, and each model function additionally
  returns the trace of fetch calls and backoff sleeps it performed.
-/

namespace AgentLink

/-- JS truthiness of a nullable string: `null`/`undefined` and `""` are falsy. -/
def jsTruthy : Option String → Bool
  | none => false
  | some s => !(s == "")

/-- `sub` occurs in `s` at position `i`. -/
def occursAt (s sub : List Char) (i : Nat) : Bool :=
  sub.isPrefixOf (s.drop i)

/-- JavaScript `String.prototype.includes` on character lists. -/
def listIncludes (s sub : List Char) : Bool :=
  match s with
  | [] => sub.isEmpty
  | c :: rest => sub.isPrefixOf (c :: rest) || listIncludes rest sub

/-- JavaScript `String.prototype.includes`. -/
def strIncludes (s sub : String) : Bool :=
  listIncludes s.data sub.data

/-- There is a position where `fst` occurs in `s`, followed (at or after its
end) by a position where `snd` occurs: "`fst` appears before `snd` in `s`". -/
def appearsBefore (s fst snd : List Char) : Bool :=
  (List.range (s.length + 1)).any fun i =>
    occursAt s fst i &&
      (List.range (s.length + 1)).any fun j =>
        decide (i + fst.length ≤ j) && occursAt s snd j

/-- `appearsBefore` on strings. -/
def strAppearsBefore (s fst snd : String) : Bool :=
  appearsBefore s.data fst.data snd.data

/-- Token-usage metadata (`usage` field of a provider response). -/
structure Usage where
  input_tokens : Nat
  output_tokens : Nat
deriving DecidableEq, Repr

/-- The fields of `WorkflowModuleData` that the execution engine reads. -/
structure Module where
  id : String
  title : String
  prompt : String
  provider : Option String
  selectedModel : Option String
deriving DecidableEq, Repr

/-- One recorded `fetch` invocation of `executeAgent`: the endpoint and the
fields of the JSON body built at workflowStore.ts lines 52-62. -/
structure CallRec where
  endpoint : String
  prompt : String
  apiKey : String
  model : String
deriving DecidableEq, Repr

/-- Stubbed outcome of one `fetch` round-trip, as `executeAgent` consumes it:
either `response.ok` with the parsed `{response, usage}` body, or a non-ok
response with `status`, the parsed body's `error` field, and `statusText`,
or a thrown transport error with its message. -/
inductive FetchResp where
  | ok (response : String) (usage : Option Usage)
  | httpError (status : Nat) (errField : Option String) (statusText : String)
  | netError (msg : String)
deriving DecidableEq, Repr

/-- Result of `executeAgent`: the returned `{response, usage}` or the thrown
error message, plus the trace of fetch calls and backoff sleeps (ms). -/
structure ExecOut where
  result : Except String (String × Usage)
  calls : List CallRec
  sleeps : List Nat
deriving Repr

/-- workflowStore.ts line 26. -/
def MAX_RETRIES : Nat := 3

/-- workflowStore.ts line 27. -/
def RETRY_DELAY_MS : Nat := 2000

/-- The prompt built at workflowStore.ts lines 56-58.  The JS conditional
`previousOutput ? _ : _` uses truthiness, so a `""` previous output takes
the `USER INPUT` branch. -/
def buildPrompt (modulePrompt : String) (previousOutput : Option String) : String :=
  if jsTruthy previousOutput then
    "CONTENT TO PROCESS: " ++ previousOutput.getD "" ++ "\n\nYOUR ROLE: " ++ modulePrompt
  else
    "USER INPUT: " ++ modulePrompt ++ "\n\nYOUR ROLE: " ++ modulePrompt

/-- The sessionStorage key that `executeAgent` reads (lines 40-42). -/
def apiKeyName (provider : String) : String :=
  if provider == "anthropic" then "anthropic_api_key" else "openai_api_key"

/-- The endpoint chosen at line 49. -/
def endpointFor (provider : String) : String :=
  if provider == "anthropic" then "/api/claude" else "/api/openai"

/-- `error.error || ⟨HTTP status: statusText⟩` (line 75): JS `||` falls through
on a missing or empty `error` field of the parsed error body. -/
def httpErrMsg (status : Nat) (errField : Option String) (statusText : String) : String :=
  match errField with
  | some e => if e == "" then "HTTP " ++ toString status ++ ": " ++ statusText else e
  | none => "HTTP " ++ toString status ++ ": " ++ statusText

/-- `!m.provider || !m.selectedModel` (lines 36 and 108). -/
def invalidModule (m : Module) : Bool :=
  !(jsTruthy m.provider) || !(jsTruthy m.selectedModel)

/-- `executeAgent` (workflowStore.ts lines 31-93).

`storage` is `sessionStorage.getItem`; `fetch n` is the response to the
`n`-th fetch issued (counting from `callIdx`).  The source recursion
`executeAgent(module, previousOutput, retryCount + 1)` is guarded by
`retryCount < MAX_RETRIES`; `fuel` is a structural-termination device kept
equal to `MAX_RETRIES + 1 - retryCount`, so it is positive at every
reachable recursive call and the `fuel = 0` alternatives (which take the
no-retry path) are unreachable from `executeAgentEntry`.

The `try { ... }` block spans the fetch and the 429-retry recursion (line
72), so an error thrown by that inner recursion is seen by this level's
`catch`, which retries once more when the message contains `"fetch"` (lines
83-92); the retries issued from within `catch` are not themselves guarded
by this level's `catch`. -/
def executeAgent (storage : String → Option String) (fetch : Nat → FetchResp)
    (m : Module) (previousOutput : Option String) :
    Nat → Nat → Nat → ExecOut
  | fuel, retryCount, callIdx =>
    if invalidModule m then
      ⟨.error "Provider and model must be selected", [], []⟩
    else
      let provider := m.provider.getD ""
      let apiKey := storage (apiKeyName provider)
      if !(jsTruthy apiKey) then
        ⟨.error ("API key not found for " ++ provider), [], []⟩
      else
        let call : CallRec :=
          ⟨endpointFor provider, buildPrompt m.prompt previousOutput,
            apiKey.getD "", m.selectedModel.getD ""⟩
        match fetch callIdx with
        | .ok r u => ⟨.ok (r, u.getD ⟨0, 0⟩), [call], []⟩
        | .httpError status errField statusText =>
          match fuel with
          | fuel' + 1 =>
            if status = 429 ∧ retryCount < MAX_RETRIES then
              -- rate limited: sleep RETRY_DELAY_MS * 2^retryCount, then retry (lines 68-73)
              let delay := RETRY_DELAY_MS * 2 ^ retryCount
              let inner := executeAgent storage fetch m previousOutput fuel' (retryCount + 1) (callIdx + 1)
              match inner.result with
              | .ok v => ⟨.ok v, call :: inner.calls, delay :: inner.sleeps⟩
              | .error msg =>
                -- the inner failure unwinds into this level's catch (lines 83-92)
                if strIncludes msg "fetch" ∧ retryCount < MAX_RETRIES then
                  let retried := executeAgent storage fetch m previousOutput fuel'
                    (retryCount + 1) (callIdx + 1 + inner.calls.length)
                  ⟨retried.result, call :: (inner.calls ++ retried.calls),
                    delay :: (inner.sleeps ++ RETRY_DELAY_MS * 2 ^ retryCount :: retried.sleeps)⟩
                else
                  ⟨.error msg, call :: inner.calls, delay :: inner.sleeps⟩
            else
              -- non-retryable response: the `throw` at line 75 lands in the catch (lines 83-92)
              let msg := httpErrMsg status errField statusText
              if strIncludes msg "fetch" ∧ retryCount < MAX_RETRIES then
                let r := executeAgent storage fetch m previousOutput fuel' (retryCount + 1) (callIdx + 1)
                ⟨r.result, call :: r.calls, RETRY_DELAY_MS * 2 ^ retryCount :: r.sleeps⟩
              else
                ⟨.error msg, [call], []⟩
          | 0 => ⟨.error (httpErrMsg status errField statusText), [call], []⟩
        | .netError nmsg =>
          match fuel with
          | fuel' + 1 =>
            -- fetch threw: the catch retries when the message contains "fetch" (lines 85-90)
            if strIncludes nmsg "fetch" ∧ retryCount < MAX_RETRIES then
              let r := executeAgent storage fetch m previousOutput fuel' (retryCount + 1) (callIdx + 1)
              ⟨r.result, call :: r.calls, RETRY_DELAY_MS * 2 ^ retryCount :: r.sleeps⟩
            else
              ⟨.error nmsg, [call], []⟩
          | 0 => ⟨.error nmsg, [call], []⟩

/-- `executeAgent(module, previousOutput)` with the default `retryCount = 0`,
as the engine's loop calls it (line 166). -/
def executeAgentEntry (storage : String → Option String) (fetch : Nat → FetchResp)
    (m : Module) (previousOutput : Option String) (callIdx : Nat) : ExecOut :=
  executeAgent storage fetch m previousOutput (MAX_RETRIES + 1) 0 callIdx

/-- Per-agent status record (workflowStore.ts lines 4-11); the wall-clock
`executionTime` field is omitted from the embedding. -/
structure AgentStatus where
  moduleId : String
  isComplete : Bool
  isExecuting : Bool
  error : Option String
  retryCount : Nat
deriving DecidableEq, Repr

/-- One `WorkflowResult` row (lines 171-178); the wall-clock `timestamp` and
`executionTime` fields are omitted from the embedding. -/
structure AgentResult where
  agentIndex : Nat
  input : String
  output : String
  usage : Usage
deriving DecidableEq, Repr

/-- The zustand store state (lines 13-24 and 95-101): `agentStatus` is a JS
object keyed by module id, modelled as a partial map. -/
structure WorkflowState where
  isRunning : Bool
  currentAgentIndex : Int
  results : List AgentResult
  error : Option String
  failedAgentIndex : Int
  agentStatus : String → Option AgentStatus

/-- The `agentStatus` object built by `modules.reduce` at lines 126-135:
for each module, `isComplete` iff its index is below `startFromIndex` and
`isExecuting` iff its index equals `startFromIndex`; with duplicate ids the
later module overwrites the earlier one, as JS object spread does. -/
def initAgentStatus (modules : List Module) (startFromIndex : Nat) :
    String → Option AgentStatus :=
  fun id =>
    match (modules.enum.filter (fun p => p.2.id == id)).getLast? with
    | some (i, m) =>
      some ⟨m.id, decide (i < startFromIndex), decide (i = startFromIndex), none, 0⟩
    | none => none

/-- `{...state.agentStatus, [module.id]: {...state.agentStatus[module.id], ...}}`:
update the entry at `id` in place. -/
def setAgentStatus (st : String → Option AgentStatus) (id : String)
    (f : AgentStatus → AgentStatus) : String → Option AgentStatus :=
  fun id' => if id' == id then (st id).map f else st id'

/-- `stopWorkflow` (workflowStore.ts lines 226-230). -/
def stopWorkflow (st : WorkflowState) : WorkflowState :=
  { st with
    isRunning := false,
    currentAgentIndex := -1,
    error := some "Workflow stopped by user" }

/-- What a run of `startWorkflow` leaves behind: the final store state, the
trace of fetch calls (each tagged with the loop index `i` of the agent that
issued it), the backoff sleeps, and whether the run ever entered the
Running state (i.e. whether the `set({isRunning: true, ...})` at lines
120-136 executed). -/
structure RunOutcome where
  final : WorkflowState
  calls : List (Nat × CallRec)
  sleeps : List Nat
  enteredRunning : Bool

/-- The `for` loop of `startWorkflow` (lines 142-215) over the modules from
`startFromIndex` on.  `stopReq i` models the user having invoked
`stopWorkflow` after the previous iteration and before iteration `i`'s
check of the running flag (line 148); cancellation is cooperative, checked
only at the top of each iteration, exactly as in the source. -/
def runLoop (storage : String → Option String) (fetch : Nat → FetchResp)
    (stopReq : Nat → Bool) :
    List Module → Nat → Option String → WorkflowState → Nat →
    WorkflowState × List (Nat × CallRec) × List Nat
  | [], _, _, st, _ =>
    -- loop finished: workflow completed successfully (lines 218-223)
    ({ st with
        isRunning := false,
        currentAgentIndex := -1,
        error := none,
        failedAgentIndex := -1 }, [], [])
  | m :: rest, i, prev, st, callIdx =>
    let st1 := if stopReq i then stopWorkflow st else st
    if st1.isRunning = false then (st1, [], [])  -- lines 148-151
    else
      -- lines 153-164
      let st2 := { st1 with
        currentAgentIndex := (i : Int),
        agentStatus := setAgentStatus st1.agentStatus m.id
          (fun a => { a with isExecuting := true, isComplete := false, error := none }) }
      let out := executeAgentEntry storage fetch m prev callIdx
      match out.result with
      | .ok (response, usage) =>
        -- lines 166-192
        let result : AgentResult := ⟨i, m.prompt, response, usage⟩
        let st3 := { st2 with
          results := st2.results ++ [result],
          agentStatus := setAgentStatus st2.agentStatus m.id
            (fun a => { a with isExecuting := false, isComplete := true, error := none }) }
        let (fin, calls, sleeps) :=
          runLoop storage fetch stopReq rest (i + 1) (some response) st3
            (callIdx + out.calls.length)
        (fin, out.calls.map (fun c => (i, c)) ++ calls, out.sleeps ++ sleeps)
      | .error msg =>
        -- lines 194-213: stop the workflow but preserve previous results
        let st3 := { st2 with
          error := some (m.title ++ ": " ++ msg),
          failedAgentIndex := (i : Int),
          isRunning := false,
          agentStatus := setAgentStatus st2.agentStatus m.id
            (fun a => { a with
              isExecuting := false,
              isComplete := false,
              error := some msg,
              retryCount := a.retryCount + 1 }) }
        (st3, out.calls.map (fun c => (i, c)), out.sleeps)

/-- `startWorkflow` (workflowStore.ts lines 103-224). -/
def startWorkflow (storage : String → Option String) (fetch : Nat → FetchResp)
    (stopReq : Nat → Bool) (st0 : WorkflowState) (modules : List Module)
    (startFromIndex : Nat := 0) : RunOutcome :=
  if st0.isRunning then ⟨st0, [], [], false⟩  -- lines 103-105
  else
    match modules.find? invalidModule with
    | some m =>
      -- lines 107-115: reject, naming the offending module
      ⟨{ st0 with
          error := some (m.title ++ ": Provider and model must be selected"),
          failedAgentIndex := (modules.findIdx invalidModule : Int) }, [], [], false⟩
    | none =>
      -- lines 117-136
      let existingResults := if startFromIndex > 0 then st0.results.take startFromIndex else []
      let st1 : WorkflowState :=
        { isRunning := true,
          currentAgentIndex := (startFromIndex : Int),
          error := none,
          failedAgentIndex := -1,
          results := existingResults,
          agentStatus := initAgentStatus modules startFromIndex }
      -- lines 138-140
      let prev : Option String :=
        if startFromIndex > 0 then
          match existingResults.getLast? with
          | some r => some r.output
          | none => none
        else none
      let (fin, calls, sleeps) :=
        runLoop storage fetch stopReq (modules.drop startFromIndex) startFromIndex prev st1 0
      ⟨fin, calls, sleeps, true⟩

/-- No cancellation request during the run. -/
def noStop : Nat → Bool := fun _ => false

/-! ## The custom LLM provider route (`src/unnamed/part_004`) -/

/-- A JSON value, as the route's `requestTemplate`, request body and parsed
response body are arbitrary JSON structures. -/
inductive Json where
  | str : String → Json
  | num : Int → Json
  | bool : Bool → Json
  | null : Json
  | arr : List Json → Json
  | obj : List (String × Json) → Json

/-- JS truthiness of a JSON value. -/
def jsonTruthy : Json → Bool
  | .str s => !(s == "")
  | .num n => !(n == 0)
  | .bool b => b
  | .null => false
  | .arr _ => true
  | .obj _ => true

/-- The `\x7b\x7bkey\x7d\x7d` placeholder token for `key` (the regex built at
part_004 line 35). -/
def tokenOf (key : String) : String := "\x7b\x7b" ++ key ++ "\x7d\x7d"

/-- ECMAScript `GetSubstitution` for a string replacement value and a
pattern with no capture groups: in the replacement text, `$$` expands to a
dollar sign, `$&` to the matched substring, `$` followed by a backtick
(`Char.ofNat 96`) to the portion of the original subject preceding the
match, and `$` followed by a single quote (`Char.ofNat 39`) to the portion
following it; a `$` in any other context (including `$n`, since the
regexes built at part_004 line 35 have no capture groups) is literal. -/
def getSubstitution (matched before after : List Char) : List Char → List Char
  | [] => []
  | ['$'] => ['$']
  | '$' :: c :: rest =>
    if c = '$' then '$' :: getSubstitution matched before after rest
    else if c = '&' then matched ++ getSubstitution matched before after rest
    else if c = Char.ofNat 96 then before ++ getSubstitution matched before after rest
    else if c = Char.ofNat 39 then after ++ getSubstitution matched before after rest
    else '$' :: getSubstitution matched before after (c :: rest)
  | c :: rest => c :: getSubstitution matched before after rest

/-- One global regex replacement `result.replace(new RegExp(token, 'g'), value)`
on character lists: left-to-right, non-overlapping; each match is replaced
by the `GetSubstitution` expansion of `rep`, so the replacement text is not
rescanned within the same pass and the `$` context substitutions see the
original subject (`before` accumulates the already-scanned original
subject, reversed).  `fuel` is a structural-termination device: every step
consumes at least one character of the subject, so any `fuel ≥ s.length`
computes the full replacement. -/
def replaceAllFuel (pat rep : List Char) : Nat → List Char → List Char → List Char
  | _, _, [] => []
  | 0, _, s => s
  | fuel + 1, before, c :: rest =>
    if pat ≠ [] ∧ pat.isPrefixOf (c :: rest) then
      getSubstitution pat before.reverse ((c :: rest).drop pat.length) rep
        ++ replaceAllFuel pat rep fuel (pat.reverse ++ before) ((c :: rest).drop pat.length)
    else
      c :: replaceAllFuel pat rep fuel (c :: before) rest

/-- `s.replace(new RegExp(pat, 'g'), rep)` for a literal pattern and a
string replacement value, ECMAScript `$`-substitution included. -/
def replaceAll (s pat rep : String) : String :=
  ⟨replaceAllFuel pat.data rep.data s.data.length [] s.data⟩

/-- The string branch of `replaceTemplateVars` (part_004 lines 33-38):
`Object.entries(variables).reduce((result, [key, value]) =>
result.replace(regex, value), template)` — one full pass per key, in the
entry order of `variables`, each pass rescanning the previous pass's
output. -/
def substituteString (s : String) (vars : List (String × String)) : String :=
  vars.foldl (fun result kv => replaceAll result (tokenOf kv.1) kv.2) s

mutual
/-- `replaceTemplateVars` (part_004 lines 32-52): strings get the per-key
sequential replacement, arrays and objects are rebuilt recursively
(`template.map` / entries-reduce, so a fresh structure is produced), and
all other leaves pass through unchanged. -/
def replaceTemplateVars (template : Json) (vars : List (String × String)) : Json :=
  match template with
  | .str s => .str (substituteString s vars)
  | .arr xs => .arr (replaceTemplateVarsList xs vars)
  | .obj fs => .obj (replaceTemplateVarsFields fs vars)
  | .num n => .num n
  | .bool b => .bool b
  | .null => .null

/-- `template.map(item => replaceTemplateVars(item, variables))`. -/
def replaceTemplateVarsList (xs : List Json) (vars : List (String × String)) : List Json :=
  match xs with
  | [] => []
  | x :: rest => replaceTemplateVars x vars :: replaceTemplateVarsList rest vars

/-- `Object.entries(template).reduce(...)`: every field value rewritten. -/
def replaceTemplateVarsFields (fs : List (String × Json)) (vars : List (String × String)) :
    List (String × Json) :=
  match fs with
  | [] => []
  | (k, v) :: rest => (k, replaceTemplateVars v vars) :: replaceTemplateVarsFields rest vars
end

/-- The substitution map built by the `POST` handler (part_004 lines 118-122);
`Object.entries` iterates in this insertion order. -/
def templateVars (prompt model apiKey : String) : List (String × String) :=
  [("prompt", prompt), ("model", model), ("api_key", apiKey)]

/-- Auth configuration of a custom provider (`auth.type`, `auth.key`). -/
structure AuthCfg where
  type : String
  key : String
deriving DecidableEq, Repr

/-- JS object property assignment on an association list: overwrite the
existing entry or append a new one. -/
def setHeader (hs : List (String × String)) (k v : String) : List (String × String) :=
  if (hs.find? (fun p => p.1 == k)).isSome then
    hs.map (fun p => if p.1 == k then (k, v) else p)
  else hs ++ [(k, v)]

/-- `buildRequestUrl` (part_004 lines 57-76): append the configured query
parameters, then the API key as a query parameter when `auth.type` is
`query`.  (The `URL`/`searchParams` percent-encoding is not modelled; for
keys and values without reserved characters it is the identity.) -/
def buildRequestUrl (baseUrl : String) (queryParams : List (String × String))
    (auth : AuthCfg) (apiKey : String) : String :=
  let qp := queryParams ++ (if auth.type == "query" then [(auth.key, apiKey)] else [])
  match qp with
  | [] => baseUrl
  | _ =>
    baseUrl ++ "?" ++
      String.intercalate "&" (qp.map (fun kv => kv.1 ++ "=" ++ kv.2))

/-- `buildRequestHeaders` (part_004 lines 81-99): `Content-Type` plus the
configured headers, then the auth header for the `bearer` and `header`
auth types (`auth.key || 'Authorization'` falls back on the empty key). -/
def buildRequestHeaders (customHeaders : List (String × String))
    (auth : AuthCfg) (apiKey : String) : List (String × String) :=
  let headers :=
    customHeaders.foldl (fun acc kv => setHeader acc kv.1 kv.2)
      [("Content-Type", "application/json")]
  if auth.type == "bearer" then
    setHeader headers (if auth.key == "" then "Authorization" else auth.key)
      ("Bearer " ++ apiKey)
  else if auth.type == "header" then
    setHeader headers auth.key apiKey
  else headers

/-- JS `String.replace` with a *string* pattern: replaces only the first
occurrence (part_004 line 143 relies on this). -/
def replaceFirst : List Char → List Char → List Char → List Char
  | [], _, _ => []
  | c :: rest, pat, rep =>
    if pat ≠ [] ∧ pat.isPrefixOf (c :: rest) then
      rep ++ (c :: rest).drop pat.length
    else
      c :: replaceFirst rest pat rep

/-- `s.replace(pat, rep)` with a string pattern (first occurrence only). -/
def strReplaceFirst (s pat rep : String) : String :=
  ⟨replaceFirst s.data pat.data rep.data⟩

/-- Field lookup on a JSON object (`'body' in t`, `t.query`, ...). -/
def jsonField (j : Json) (k : String) : Option Json :=
  match j with
  | .obj fs => (fs.find? (fun p => p.1 == k)).map (fun p => p.2)
  | _ => none

/-- Read a `Record<string, string>` JSON object as query-parameter pairs. -/
def jsonToQueryPairs : Json → List (String × String)
  | .obj fs => fs.map (fun p => (p.1, match p.2 with | .str s => s | _ => ""))
  | _ => []

/-- Custom provider configuration (`ProviderConfig`, part_004 lines 4-17). -/
structure ProviderConfig where
  endpoint : String
  method : Option String
  auth : AuthCfg
  headers : List (String × String)
  responsePath : String
  requestTemplate : Json

/-- The outbound request the `POST` handler builds (part_004 lines 117-156)
together with the diagnostics it logs at lines 142-149: the URL with (only)
the first occurrence of the key replaced by `[REDACTED]`, the header map
with the `Authorization` and `auth.key` entries replaced by `[REDACTED]`,
and the request body, which is logged as-is. -/
structure PostRequest where
  url : String
  headers : List (String × String)
  body : Json
  loggedUrl : String
  loggedHeaders : List (String × String)
  loggedBody : Json

/-- `{...headers, Authorization: headers.Authorization ? '[REDACTED]' :
undefined, [auth.key]: '[REDACTED]'}` (part_004 lines 144-148). -/
def redactHeaders (headers : List (String × String)) (authKey : String) :
    List (String × String) :=
  let h1 :=
    if (headers.find? (fun p => p.1 == "Authorization")).isSome then
      setHeader headers "Authorization" "[REDACTED]"
    else headers
  setHeader h1 authKey "[REDACTED]"

/-- The request-building phase of the `POST` handler (part_004 lines
117-149): template substitution of the endpoint, query parameters and body,
URL and header assembly, and the logged diagnostics. -/
def postRequest (cfg : ProviderConfig) (prompt model apiKey : String) : PostRequest :=
  let vars := templateVars prompt model apiKey
  let baseUrl := substituteString cfg.endpoint vars
  let queryParams :=
    match jsonField cfg.requestTemplate "query" with
    | some q => if jsonTruthy q then jsonToQueryPairs (replaceTemplateVars q vars) else []
    | none => []
  let url := buildRequestUrl baseUrl queryParams cfg.auth apiKey
  let headers := buildRequestHeaders cfg.headers cfg.auth apiKey
  let body :=
    match jsonField cfg.requestTemplate "body" with
    | some b => replaceTemplateVars b vars
    | none => replaceTemplateVars cfg.requestTemplate vars
  { url := url, headers := headers, body := body,
    loggedUrl := strReplaceFirst url apiKey "[REDACTED]",
    loggedHeaders := redactHeaders headers cfg.auth.key,
    loggedBody := body }

/-- Append the pending segment (if non-empty) as a path component. -/
def flushSeg (acc : List Char) : List String :=
  if acc.isEmpty then [] else [String.mk acc.reverse]

/-- Lodash-style path parsing for dotted field access and bracket indexing:
`"choices[0].message.content"` becomes `["choices", "0", "message",
"content"]`.  `acc` holds the current segment reversed; the `Bool` is true
inside `[...]`. -/
def parsePathAux : List Char → List Char → Bool → List String
  | [], acc, _ => flushSeg acc
  | c :: rest, acc, false =>
    if c == '.' then flushSeg acc ++ parsePathAux rest [] false
    else if c == '[' then flushSeg acc ++ parsePathAux rest [] true
    else parsePathAux rest (c :: acc) false
  | c :: rest, acc, true =>
    if c == ']' then flushSeg acc ++ parsePathAux rest [] false
    else parsePathAux rest (c :: acc) true

/-- Parse a `responsePath` string into its segments. -/
def parsePath (p : String) : List String := parsePathAux p.data [] false

/-- Accumulate decimal digits; `none` on a non-digit character. -/
def digitsToNat : List Char → Nat → Option Nat
  | [], acc => some acc
  | c :: rest, acc =>
    if c.isDigit then digitsToNat rest (acc * 10 + (c.toNat - 48)) else none

/-- A path segment read as an array index: all-digit segments only. -/
def segToNat (s : String) : Option Nat :=
  match s.data with
  | [] => none
  | cs => digitsToNat cs 0

/-- `lodash.get`: walk the parsed path through objects (field lookup) and
arrays (numeric index); a step that does not resolve yields `none`
(JS `undefined`). -/
def jsonGet : Json → List String → Option Json
  | j, [] => some j
  | .obj fs, k :: rest =>
    match fs.find? (fun p => p.1 == k) with
    | some p => jsonGet p.2 rest
    | none => none
  | .arr xs, k :: rest =>
    match segToNat k with
    | some n =>
      match xs.get? n with
      | some x => jsonGet x rest
      | none => none
    | none => none
  | _, _ :: _ => none

/-- The response-extraction phase of the `POST` handler (part_004 lines
169-178): `get(responseData, responsePath)`, throwing
`"Could not find response at path: <path>"` when the walk yields
`undefined`. -/
def extractResponse (responseData : Json) (responsePath : String) : Except String Json :=
  match jsonGet responseData (parsePath responsePath) with
  | some v => .ok v
  | none => .error ("Could not find response at path: " ++ responsePath)

mutual
/-- `sub` occurs inside some string leaf of `j` (used to state that a
diagnostic JSON value contains the credential in cleartext). -/
def jsonContainsStr (j : Json) (sub : String) : Bool :=
  match j with
  | .str s => strIncludes s sub
  | .arr xs => jsonListContainsStr xs sub
  | .obj fs => jsonFieldsContainsStr fs sub
  | .num _ => false
  | .bool _ => false
  | .null => false

/-- `jsonContainsStr` over a list of JSON values. -/
def jsonListContainsStr (xs : List Json) (sub : String) : Bool :=
  match xs with
  | [] => false
  | x :: rest => jsonContainsStr x sub || jsonListContainsStr rest sub

/-- `jsonContainsStr` over object fields (values only). -/
def jsonFieldsContainsStr (fs : List (String × Json)) (sub : String) : Bool :=
  match fs with
  | [] => false
  | (_, v) :: rest => jsonContainsStr v sub || jsonFieldsContainsStr rest sub
end

/-! ## Auxiliary lemmas -/

theorem listIncludes_nil (s : List Char) : listIncludes s [] = true := by
  cases s with
  | nil => rfl
  | cons c rest => simp [listIncludes]

theorem isPrefixOf_self_append (l t : List Char) : l.isPrefixOf (l ++ t) = true := by
  induction l with
  | nil => simp [List.isPrefixOf]
  | cons c rest ih => simp [List.isPrefixOf, ih]

theorem listIncludes_append_mid (a b c : List Char) :
    listIncludes (a ++ (b ++ c)) b = true := by
  induction a with
  | nil =>
    cases b with
    | nil => exact listIncludes_nil c
    | cons x xs => simp [listIncludes, isPrefixOf_self_append]
  | cons x xs ih => simp [listIncludes, ih]

theorem strIncludes_append_mid (a b c : String) :
    strIncludes (a ++ b ++ c) b = true := by
  show listIncludes (a ++ b ++ c).data b.data = true
  have h : (a ++ b ++ c).data = a.data ++ (b.data ++ c.data) := by
    simp [String.data_append]
  rw [h]
  exact listIncludes_append_mid _ _ _

/-- The prompt built for a non-null previous output contains that output as
a substring (trivially so when the previous output is empty, in which case
the `USER INPUT` branch is taken). -/
theorem buildPrompt_includes (p o : String) :
    strIncludes (buildPrompt p (some o)) o = true := by
  by_cases h : o = ""
  · subst h
    show listIncludes _ [] = true
    exact listIncludes_nil _
  · have ht : jsTruthy (some o) = true := by
      simp [jsTruthy, h]
    unfold buildPrompt
    rw [ht]
    simp only [Option.getD_some, if_true]
    have : "CONTENT TO PROCESS: " ++ o ++ "\n\nYOUR ROLE: " ++ p
        = "CONTENT TO PROCESS: " ++ o ++ ("\n\nYOUR ROLE: " ++ p) := by
      simp [String.append_assoc]
    rw [this]
    exact strIncludes_append_mid _ _ _

/-- The call record `executeAgent` issues for module `m` with input `prev`
(when the configuration checks pass). -/
def mkCallRec (storage : String → Option String) (m : Module) (prev : Option String) : CallRec :=
  ⟨endpointFor (m.provider.getD ""), buildPrompt m.prompt prev,
    (storage (apiKeyName (m.provider.getD ""))).getD "", m.selectedModel.getD ""⟩

/-- `executeAgent` on an immediately successful fetch. -/
theorem executeAgent_ok (storage : String → Option String) (fetch : Nat → FetchResp)
    (m : Module) (prev : Option String) (fuel rc callIdx : Nat) (r : String) (u : Option Usage)
    (hm : invalidModule m = false)
    (hk : jsTruthy (storage (apiKeyName (m.provider.getD ""))) = true)
    (hf : fetch callIdx = .ok r u) :
    executeAgent storage fetch m prev fuel rc callIdx
      = ⟨.ok (r, u.getD ⟨0, 0⟩), [mkCallRec storage m prev], []⟩ := by
  unfold executeAgent
  simp [hm, hk, hf, mkCallRec]

/-- `executeAgent` on a non-retryable HTTP error: any status other than 429
whose synthesized message does not contain `"fetch"` surfaces at once. -/
theorem executeAgent_fail_nonretry (storage : String → Option String) (fetch : Nat → FetchResp)
    (m : Module) (prev : Option String) (fuel rc callIdx status : Nat) (em stx : String)
    (hm : invalidModule m = false)
    (hk : jsTruthy (storage (apiKeyName (m.provider.getD ""))) = true)
    (hf : fetch callIdx = .httpError status (some em) stx)
    (h429 : status ≠ 429)
    (hfm : strIncludes em "fetch" = false)
    (hem : em ≠ "") :
    executeAgent storage fetch m prev fuel rc callIdx
      = ⟨.error em, [mkCallRec storage m prev], []⟩ := by
  have hmsg : httpErrMsg status (some em) stx = em := by
    simp [httpErrMsg, hem]
  cases fuel with
  | zero =>
    unfold executeAgent
    simp [hm, hk, hf, hmsg, mkCallRec]
  | succ fuel' =>
    unfold executeAgent
    simp [hm, hk, hf, hmsg, mkCallRec, h429, hfm]

/-- `executeAgent` when the module lacks a provider or model. -/
theorem executeAgent_invalid (storage : String → Option String) (fetch : Nat → FetchResp)
    (m : Module) (prev : Option String) (fuel rc callIdx : Nat)
    (hm : invalidModule m = true) :
    executeAgent storage fetch m prev fuel rc callIdx
      = ⟨.error "Provider and model must be selected", [], []⟩ := by
  unfold executeAgent
  simp [hm]

/-- `executeAgent` when the credential is not in sessionStorage: it throws
before any fetch is issued. -/
theorem executeAgent_noKey (storage : String → Option String) (fetch : Nat → FetchResp)
    (m : Module) (prev : Option String) (fuel rc callIdx : Nat)
    (hm : invalidModule m = false)
    (hk : jsTruthy (storage (apiKeyName (m.provider.getD ""))) = false) :
    executeAgent storage fetch m prev fuel rc callIdx
      = ⟨.error ("API key not found for " ++ m.provider.getD ""), [], []⟩ := by
  unfold executeAgent
  simp [hm, hk]

/-- Reduce a stuck match on a triple to projections. -/
theorem prodMatch3 {α β γ δ : Type _} (e : α × β × γ) (f : α → β → γ → δ) :
    (match e with | (a, b, c) => f a b c) = f e.1 e.2.1 e.2.2 := by
  rcases e with ⟨a, b, c⟩
  rfl

/-- Proof device: the state after the two `set` calls of a successful loop
iteration for module `m` at index `i`. -/
def stepSuccState (st : WorkflowState) (i : Nat) (m : Module)
    (response : String) (usage : Usage) : WorkflowState :=
  { st with
    currentAgentIndex := (i : Int),
    results := st.results ++ [⟨i, m.prompt, response, usage⟩],
    agentStatus := setAgentStatus (setAgentStatus st.agentStatus m.id
        (fun a => { a with isExecuting := true, isComplete := false, error := none })) m.id
      (fun a => { a with isExecuting := false, isComplete := true, error := none }) }

/-- Proof device: the state after the failure `set` of a loop iteration. -/
def stepFailState (st : WorkflowState) (i : Nat) (m : Module) (msg : String) : WorkflowState :=
  { st with
    currentAgentIndex := (i : Int),
    error := some (m.title ++ ": " ++ msg),
    failedAgentIndex := (i : Int),
    isRunning := false,
    agentStatus := setAgentStatus (setAgentStatus st.agentStatus m.id
        (fun a => { a with isExecuting := true, isComplete := false, error := none })) m.id
      (fun a => { a with
        isExecuting := false, isComplete := false, error := some msg,
        retryCount := a.retryCount + 1 }) }

/-- One loop iteration in which the agent succeeds. -/
theorem runLoop_cons_ok (storage : String → Option String) (fetch : Nat → FetchResp)
    (stopReq : Nat → Bool) (m : Module) (rest : List Module) (i : Nat)
    (prev : Option String) (st : WorkflowState) (callIdx : Nat)
    (response : String) (usage : Usage) (ecalls : List CallRec) (esleeps : List Nat)
    (hstop : stopReq i = false) (hrun : st.isRunning = true)
    (hexec : executeAgentEntry storage fetch m prev callIdx
      = ⟨.ok (response, usage), ecalls, esleeps⟩) :
    runLoop storage fetch stopReq (m :: rest) i prev st callIdx =
      ((runLoop storage fetch stopReq rest (i + 1) (some response)
          (stepSuccState st i m response usage) (callIdx + ecalls.length)).1,
        ecalls.map (fun c => (i, c)) ++
          (runLoop storage fetch stopReq rest (i + 1) (some response)
            (stepSuccState st i m response usage) (callIdx + ecalls.length)).2.1,
        esleeps ++
          (runLoop storage fetch stopReq rest (i + 1) (some response)
            (stepSuccState st i m response usage) (callIdx + ecalls.length)).2.2) := by
  rw [runLoop]
  simp only [hstop, hrun, hexec, prodMatch3]
  simp [stepSuccState, hrun]

/-- One loop iteration in which the agent fails: the loop records the failure
and returns, preserving the results accumulated so far. -/
theorem runLoop_cons_fail (storage : String → Option String) (fetch : Nat → FetchResp)
    (stopReq : Nat → Bool) (m : Module) (rest : List Module) (i : Nat)
    (prev : Option String) (st : WorkflowState) (callIdx : Nat)
    (msg : String) (ecalls : List CallRec) (esleeps : List Nat)
    (hstop : stopReq i = false) (hrun : st.isRunning = true)
    (hexec : executeAgentEntry storage fetch m prev callIdx = ⟨.error msg, ecalls, esleeps⟩) :
    runLoop storage fetch stopReq (m :: rest) i prev st callIdx =
      (stepFailState st i m msg, ecalls.map (fun c => (i, c)), esleeps) := by
  rw [runLoop]
  simp only [hstop, hrun, hexec]
  simp [stepFailState, hrun]

/-- One loop iteration at which a cancellation request is observed: the loop
returns at once with the stopped state. -/
theorem runLoop_cons_stop (storage : String → Option String) (fetch : Nat → FetchResp)
    (stopReq : Nat → Bool) (m : Module) (rest : List Module) (i : Nat)
    (prev : Option String) (st : WorkflowState) (callIdx : Nat)
    (hstop : stopReq i = true) :
    runLoop storage fetch stopReq (m :: rest) i prev st callIdx =
      (stopWorkflow st, [], []) := by
  rw [runLoop]
  simp [hstop, stopWorkflow]

/-- Proof device: the result rows appended by a run of consecutive,
immediately successful agents, where the agent at position `j` of the list
has loop index `i + j` and consumes fetch call `callIdx + j`. -/
def successResults (out : Nat → String) (usg : Nat → Option Usage) :
    List Module → Nat → Nat → List AgentResult
  | [], _, _ => []
  | m :: rest, i, callIdx =>
    ⟨i, m.prompt, out callIdx, (usg callIdx).getD ⟨0, 0⟩⟩ ::
      successResults out usg rest (i + 1) (callIdx + 1)

/-- Proof device: the tagged call records of such a run, threading each
agent's output into the next agent's `previousOutput`. -/
def successCalls (storage : String → Option String) (out : Nat → String) :
    List Module → Nat → Nat → Option String → List (Nat × CallRec)
  | [], _, _, _ => []
  | m :: rest, i, callIdx, prev =>
    (i, mkCallRec storage m prev) ::
      successCalls storage out rest (i + 1) (callIdx + 1) (some (out callIdx))

theorem successResults_length (out : Nat → String) (usg : Nat → Option Usage) :
    ∀ (mods : List Module) (i callIdx : Nat),
      (successResults out usg mods i callIdx).length = mods.length := by
  intro mods
  induction mods with
  | nil => intro i callIdx; rfl
  | cons m rest ih => intro i callIdx; simp [successResults, ih]

theorem successResults_take (out : Nat → String) (usg : Nat → Option Usage) :
    ∀ (mods : List Module) (k i callIdx : Nat),
      successResults out usg (mods.take k) i callIdx
        = (successResults out usg mods i callIdx).take k := by
  intro mods
  induction mods with
  | nil => intro k i callIdx; simp [successResults]
  | cons m rest ih =>
    intro k i callIdx
    cases k with
    | zero => simp [successResults]
    | succ k' => simp [successResults, ih]

theorem successCalls_length (storage : String → Option String) (out : Nat → String) :
    ∀ (mods : List Module) (i callIdx : Nat) (prev : Option String),
      (successCalls storage out mods i callIdx prev).length = mods.length := by
  intro mods
  induction mods with
  | nil => intro i callIdx prev; rfl
  | cons m rest ih => intro i callIdx prev; simp [successCalls, ih]

theorem successCalls_get (storage : String → Option String) (out : Nat → String) :
    ∀ (mods : List Module) (i callIdx : Nat) (prev : Option String) (j : Nat)
      (hj : j < mods.length),
      (successCalls storage out mods i callIdx prev).get? j
        = some (i + j, mkCallRec storage (mods.get ⟨j, hj⟩)
            (if j = 0 then prev else some (out (callIdx + j - 1)))) := by
  intro mods
  induction mods with
  | nil => intro i callIdx prev j hj; simp at hj
  | cons m rest ih =>
    intro i callIdx prev j hj
    cases j with
    | zero => simp [successCalls]
    | succ j' =>
      have hj' : j' < rest.length := by simpa using hj
      have H := ih (i + 1) (callIdx + 1) (some (out callIdx)) j' hj'
      simp only [successCalls, List.get?_cons_succ, H]
      have harg : (if j' = 0 then some (out callIdx) else some (out (callIdx + 1 + j' - 1)))
          = some (out (callIdx + (j' + 1) - 1)) := by
        cases j' with
        | zero => simp
        | succ j'' =>
          have ha : callIdx + 1 + (j'' + 1) - 1 = callIdx + (j'' + 1 + 1) - 1 := by omega
          simp [ha]
      rw [harg]
      have hi : i + 1 + j' = i + (j' + 1) := by omega
      rw [hi]
      simp

/-- All-success characterization of the loop: with every fetch from `callIdx`
on succeeding immediately, no pending cancellation, and a running state, the
loop appends one result row per remaining module, issues exactly one tagged
call per module in order, performs no sleeps, and ends Completed. -/
theorem runLoop_success_char (storage : String → Option String)
    (fetch : Nat → FetchResp) (stopReq : Nat → Bool)
    (out : Nat → String) (usg : Nat → Option Usage) :
    ∀ (mods : List Module) (i : Nat) (prev : Option String)
      (st : WorkflowState) (callIdx : Nat) (fin : WorkflowState)
      (calls : List (Nat × CallRec)) (sleeps : List Nat),
      (∀ m ∈ mods, invalidModule m = false) →
      (∀ kn, jsTruthy (storage kn) = true) →
      (∀ j, fetch (callIdx + j) = FetchResp.ok (out (callIdx + j)) (usg (callIdx + j))) →
      (∀ j, stopReq j = false) →
      st.isRunning = true →
      runLoop storage fetch stopReq mods i prev st callIdx = (fin, calls, sleeps) →
      fin.results = st.results ++ successResults out usg mods i callIdx
      ∧ fin.isRunning = false
      ∧ fin.error = none
      ∧ fin.failedAgentIndex = -1
      ∧ calls = successCalls storage out mods i callIdx prev
      ∧ sleeps = [] := by
  intro mods
  induction mods with
  | nil =>
    intro i prev st callIdx fin calls sleeps hv hst hf hstop hrun heq
    rw [runLoop] at heq
    cases heq
    simp [successResults, successCalls]
  | cons m rest ih =>
    intro i prev st callIdx fin calls sleeps hv hst hf hstop hrun heq
    have hm : invalidModule m = false := hv m (by simp)
    have hf0 : fetch callIdx = FetchResp.ok (out callIdx) (usg callIdx) := by
      simpa using hf 0
    have hexec : executeAgentEntry storage fetch m prev callIdx
        = ⟨.ok (out callIdx, (usg callIdx).getD ⟨0, 0⟩), [mkCallRec storage m prev], []⟩ := by
      unfold executeAgentEntry
      exact executeAgent_ok storage fetch m prev _ _ _ _ _ hm (hst _) hf0
    rw [runLoop_cons_ok storage fetch stopReq m rest i prev st callIdx
      (out callIdx) ((usg callIdx).getD ⟨0, 0⟩) [mkCallRec storage m prev] []
      (hstop i) hrun hexec] at heq
    simp only [List.length_cons, List.length_nil, Nat.zero_add, List.map_cons, List.map_nil,
      List.singleton_append, List.nil_append] at heq
    rcases hR : runLoop storage fetch stopReq rest (i + 1) (some (out callIdx))
      (stepSuccState st i m (out callIdx) ((usg callIdx).getD ⟨0, 0⟩)) (callIdx + 1)
      with ⟨fin', calls', sleeps'⟩
    rw [hR] at heq
    obtain ⟨h1, h2, h3, h4, h5, h6⟩ := ih (i + 1) (some (out callIdx))
      (stepSuccState st i m (out callIdx) ((usg callIdx).getD ⟨0, 0⟩)) (callIdx + 1)
      fin' calls' sleeps'
      (fun m' hm' => hv m' (by simp [hm']))
      hst
      (fun j => by
        have h := hf (1 + j)
        rw [← Nat.add_assoc] at h
        exact h)
      hstop
      (by simp [stepSuccState, hrun])
      hR
    cases heq
    refine ⟨?_, h2, h3, h4, ?_, h6⟩
    · rw [h1]
      simp [stepSuccState, successResults]
    · rw [h5]
      simp [successCalls]

/-- Failure characterization of the loop: fetches `callIdx ... callIdx+k-1`
succeed immediately, fetch `callIdx+k` is a non-retryable HTTP error whose
message `em` does not contain `"fetch"`.  The loop preserves the first `k`
result rows exactly as a fully successful run would have produced them, and
ends Failed at loop index `i + k` with the error prefixed by the failing
module's title. -/
theorem runLoop_fail_char (storage : String → Option String)
    (fetch : Nat → FetchResp) (stopReq : Nat → Bool)
    (out : Nat → String) (usg : Nat → Option Usage)
    (status : Nat) (em stx : String) :
    ∀ (k : Nat) (mods : List Module) (mk : Module) (i : Nat) (prev : Option String)
      (st : WorkflowState) (callIdx : Nat) (fin : WorkflowState)
      (calls : List (Nat × CallRec)) (sleeps : List Nat),
      mods.get? k = some mk →
      (∀ m ∈ mods, invalidModule m = false) →
      (∀ kn, jsTruthy (storage kn) = true) →
      (∀ j, j < k → fetch (callIdx + j) = FetchResp.ok (out (callIdx + j)) (usg (callIdx + j))) →
      fetch (callIdx + k) = FetchResp.httpError status (some em) stx →
      status ≠ 429 →
      strIncludes em "fetch" = false →
      em ≠ "" →
      (∀ j, stopReq j = false) →
      st.isRunning = true →
      runLoop storage fetch stopReq mods i prev st callIdx = (fin, calls, sleeps) →
      fin.results = st.results ++ successResults out usg (mods.take k) i callIdx
      ∧ fin.isRunning = false
      ∧ fin.error = some (mk.title ++ ": " ++ em)
      ∧ fin.failedAgentIndex = ((i + k : Nat) : Int) := by
  intro k
  induction k with
  | zero =>
    intro mods mk i prev st callIdx fin calls sleeps hmk hv hst hpre hbad h429 hfm hem hstop hrun heq
    cases mods with
    | nil => simp at hmk
    | cons m rest =>
      have hmeq : m = mk := by simpa using hmk
      subst hmeq
      rw [Nat.add_zero] at hbad
      have hexec : executeAgentEntry storage fetch m prev callIdx
          = ⟨.error em, [mkCallRec storage m prev], []⟩ := by
        unfold executeAgentEntry
        exact executeAgent_fail_nonretry storage fetch m prev _ _ _ _ _ _
          (hv m (by simp)) (hst _) hbad h429 hfm hem
      rw [runLoop_cons_fail storage fetch stopReq m rest i prev st callIdx
        em [mkCallRec storage m prev] [] (hstop i) hrun hexec] at heq
      cases heq
      refine ⟨?_, ?_, ?_, ?_⟩
      · simp [stepFailState, successResults]
      · simp [stepFailState]
      · simp [stepFailState]
      · simp [stepFailState]
  | succ k' ih =>
    intro mods mk i prev st callIdx fin calls sleeps hmk hv hst hpre hbad h429 hfm hem hstop hrun heq
    cases mods with
    | nil => simp at hmk
    | cons m rest =>
      have hmk' : rest.get? k' = some mk := by simpa using hmk
      have hm : invalidModule m = false := hv m (by simp)
      have hf0 : fetch callIdx = FetchResp.ok (out callIdx) (usg callIdx) := by
        simpa using hpre 0 (Nat.succ_pos k')
      have hexec : executeAgentEntry storage fetch m prev callIdx
          = ⟨.ok (out callIdx, (usg callIdx).getD ⟨0, 0⟩), [mkCallRec storage m prev], []⟩ := by
        unfold executeAgentEntry
        exact executeAgent_ok storage fetch m prev _ _ _ _ _ hm (hst _) hf0
      rw [runLoop_cons_ok storage fetch stopReq m rest i prev st callIdx
        (out callIdx) ((usg callIdx).getD ⟨0, 0⟩) [mkCallRec storage m prev] []
        (hstop i) hrun hexec] at heq
      simp only [List.length_cons, List.length_nil, Nat.zero_add, List.map_cons, List.map_nil,
        List.singleton_append, List.nil_append] at heq
      rcases hR : runLoop storage fetch stopReq rest (i + 1) (some (out callIdx))
        (stepSuccState st i m (out callIdx) ((usg callIdx).getD ⟨0, 0⟩)) (callIdx + 1)
        with ⟨fin', calls', sleeps'⟩
      rw [hR] at heq
      obtain ⟨h1, h2, h3, h4⟩ := ih rest mk (i + 1) (some (out callIdx))
        (stepSuccState st i m (out callIdx) ((usg callIdx).getD ⟨0, 0⟩)) (callIdx + 1)
        fin' calls' sleeps' hmk'
        (fun m' hm' => hv m' (by simp [hm']))
        hst
        (fun j hj => by
          have h := hpre (1 + j) (by omega)
          rw [← Nat.add_assoc] at h
          exact h)
        (by
          have h : callIdx + 1 + k' = callIdx + (k' + 1) := by omega
          rw [h]
          exact hbad)
        h429 hfm hem hstop
        (by simp [stepSuccState, hrun])
        hR
      cases heq
      refine ⟨?_, h2, h3, ?_⟩
      · rw [h1]
        simp [stepSuccState, successResults]
      · rw [h4]
        congr 1
        omega

/-- Missing-credential characterization of the loop: the first `k` agents
have their credentials configured and their fetches succeed immediately;
the agent at position `k` is fully configured but its credential lookup is
falsy, so `executeAgent` throws before issuing any fetch.  The loop
preserves the first `k` result rows, issues exactly one tagged call per
preceding agent and none for the failing one, and ends Failed at loop
index `i + k` with the title-prefixed missing-key error. -/
theorem runLoop_noKey_char (storage : String → Option String)
    (fetch : Nat → FetchResp) (stopReq : Nat → Bool)
    (out : Nat → String) (usg : Nat → Option Usage) :
    ∀ (k : Nat) (mods : List Module) (mk : Module) (i : Nat) (prev : Option String)
      (st : WorkflowState) (callIdx : Nat) (fin : WorkflowState)
      (calls : List (Nat × CallRec)) (sleeps : List Nat),
      mods.get? k = some mk →
      (∀ m ∈ mods, invalidModule m = false) →
      (∀ m ∈ mods.take k, jsTruthy (storage (apiKeyName (m.provider.getD ""))) = true) →
      jsTruthy (storage (apiKeyName (mk.provider.getD ""))) = false →
      (∀ j, j < k → fetch (callIdx + j) = FetchResp.ok (out (callIdx + j)) (usg (callIdx + j))) →
      (∀ j, stopReq j = false) →
      st.isRunning = true →
      runLoop storage fetch stopReq mods i prev st callIdx = (fin, calls, sleeps) →
      fin.results = st.results ++ successResults out usg (mods.take k) i callIdx
      ∧ fin.isRunning = false
      ∧ fin.error = some (mk.title ++ ": " ++ ("API key not found for " ++ mk.provider.getD ""))
      ∧ fin.failedAgentIndex = ((i + k : Nat) : Int)
      ∧ calls = successCalls storage out (mods.take k) i callIdx prev := by
  intro k
  induction k with
  | zero =>
    intro mods mk i prev st callIdx fin calls sleeps hmk hv hkpre hnokey hpre hstop hrun heq
    cases mods with
    | nil => simp at hmk
    | cons m rest =>
      have hmeq : m = mk := by simpa using hmk
      subst hmeq
      have hexec : executeAgentEntry storage fetch m prev callIdx
          = ⟨.error ("API key not found for " ++ m.provider.getD ""), [], []⟩ := by
        unfold executeAgentEntry
        exact executeAgent_noKey storage fetch m prev _ _ _ (hv m (by simp)) hnokey
      rw [runLoop_cons_fail storage fetch stopReq m rest i prev st callIdx
        ("API key not found for " ++ m.provider.getD "") [] [] (hstop i) hrun hexec] at heq
      cases heq
      refine ⟨?_, ?_, ?_, ?_, ?_⟩
      · simp [stepFailState, successResults]
      · simp [stepFailState]
      · simp [stepFailState]
      · simp [stepFailState]
      · simp [successCalls]
  | succ k' ih =>
    intro mods mk i prev st callIdx fin calls sleeps hmk hv hkpre hnokey hpre hstop hrun heq
    cases mods with
    | nil => simp at hmk
    | cons m rest =>
      have hmk' : rest.get? k' = some mk := by simpa using hmk
      have hm : invalidModule m = false := hv m (by simp)
      have hk0 : jsTruthy (storage (apiKeyName (m.provider.getD ""))) = true :=
        hkpre m (by simp)
      have hf0 : fetch callIdx = FetchResp.ok (out callIdx) (usg callIdx) := by
        simpa using hpre 0 (Nat.succ_pos k')
      have hexec : executeAgentEntry storage fetch m prev callIdx
          = ⟨.ok (out callIdx, (usg callIdx).getD ⟨0, 0⟩), [mkCallRec storage m prev], []⟩ := by
        unfold executeAgentEntry
        exact executeAgent_ok storage fetch m prev _ _ _ _ _ hm hk0 hf0
      rw [runLoop_cons_ok storage fetch stopReq m rest i prev st callIdx
        (out callIdx) ((usg callIdx).getD ⟨0, 0⟩) [mkCallRec storage m prev] []
        (hstop i) hrun hexec] at heq
      simp only [List.length_cons, List.length_nil, Nat.zero_add, List.map_cons, List.map_nil,
        List.singleton_append, List.nil_append] at heq
      rcases hR : runLoop storage fetch stopReq rest (i + 1) (some (out callIdx))
        (stepSuccState st i m (out callIdx) ((usg callIdx).getD ⟨0, 0⟩)) (callIdx + 1)
        with ⟨fin', calls', sleeps'⟩
      rw [hR] at heq
      obtain ⟨h1, h2, h3, h4, h5⟩ := ih rest mk (i + 1) (some (out callIdx))
        (stepSuccState st i m (out callIdx) ((usg callIdx).getD ⟨0, 0⟩)) (callIdx + 1)
        fin' calls' sleeps' hmk'
        (fun m' hm' => hv m' (by simp [hm']))
        (fun m' hm' => hkpre m' (by simp [List.take_succ_cons, hm']))
        hnokey
        (fun j hj => by
          have h := hpre (1 + j) (by omega)
          rw [← Nat.add_assoc] at h
          exact h)
        hstop
        (by simp [stepSuccState, hrun])
        hR
      cases heq
      refine ⟨?_, h2, h3, ?_, ?_⟩
      · rw [h1]
        simp [stepSuccState, successResults]
      · rw [h4]
        congr 1
        omega
      · rw [h5]
        simp [successCalls]

/-- Cancellation characterization of the loop: every fetch succeeds, the
first cancellation request arrives before iteration `i0` checks the running
flag.  The loop runs agents `i ... i0-1`, then observes the stopped state
and returns: results and calls cover exactly the agents before `i0`, the
cancellation marker is the run error, and `failedAgentIndex` is untouched. -/
theorem runLoop_stop_char (storage : String → Option String)
    (fetch : Nat → FetchResp) (stopReq : Nat → Bool)
    (out : Nat → String) (usg : Nat → Option Usage) (i0 : Nat) :
    ∀ (mods : List Module) (i : Nat) (prev : Option String)
      (st : WorkflowState) (callIdx : Nat) (fin : WorkflowState)
      (calls : List (Nat × CallRec)) (sleeps : List Nat),
      (∀ m ∈ mods, invalidModule m = false) →
      (∀ kn, jsTruthy (storage kn) = true) →
      (∀ j, fetch (callIdx + j) = FetchResp.ok (out (callIdx + j)) (usg (callIdx + j))) →
      (∀ j, j < i0 → stopReq j = false) →
      stopReq i0 = true →
      i ≤ i0 → i0 < i + mods.length →
      st.isRunning = true →
      runLoop storage fetch stopReq mods i prev st callIdx = (fin, calls, sleeps) →
      fin.isRunning = false
      ∧ fin.error = some "Workflow stopped by user"
      ∧ fin.failedAgentIndex = st.failedAgentIndex
      ∧ fin.results = st.results ++ successResults out usg (mods.take (i0 - i)) i callIdx
      ∧ calls = successCalls storage out (mods.take (i0 - i)) i callIdx prev := by
  intro mods
  induction mods with
  | nil =>
    intro i prev st callIdx fin calls sleeps hv hst hf hpre hat hge hlt hrun heq
    simp at hlt
    omega
  | cons m rest ih =>
    intro i prev st callIdx fin calls sleeps hv hst hf hpre hat hge hlt hrun heq
    by_cases hii : i = i0
    · subst hii
      rw [runLoop_cons_stop storage fetch stopReq m rest i prev st callIdx hat] at heq
      cases heq
      refine ⟨rfl, rfl, rfl, ?_, ?_⟩
      · simp [stopWorkflow, successResults]
      · simp [successCalls]
    · have hlt' : i < i0 := by omega
      have hm : invalidModule m = false := hv m (by simp)
      have hf0 : fetch callIdx = FetchResp.ok (out callIdx) (usg callIdx) := by
        simpa using hf 0
      have hexec : executeAgentEntry storage fetch m prev callIdx
          = ⟨.ok (out callIdx, (usg callIdx).getD ⟨0, 0⟩), [mkCallRec storage m prev], []⟩ := by
        unfold executeAgentEntry
        exact executeAgent_ok storage fetch m prev _ _ _ _ _ hm (hst _) hf0
      rw [runLoop_cons_ok storage fetch stopReq m rest i prev st callIdx
        (out callIdx) ((usg callIdx).getD ⟨0, 0⟩) [mkCallRec storage m prev] []
        (hpre i hlt') hrun hexec] at heq
      simp only [List.length_cons, List.length_nil, Nat.zero_add, List.map_cons, List.map_nil,
        List.singleton_append, List.nil_append] at heq
      rcases hR : runLoop storage fetch stopReq rest (i + 1) (some (out callIdx))
        (stepSuccState st i m (out callIdx) ((usg callIdx).getD ⟨0, 0⟩)) (callIdx + 1)
        with ⟨fin', calls', sleeps'⟩
      rw [hR] at heq
      obtain ⟨h1, h2, h3, h4, h5⟩ := ih (i + 1) (some (out callIdx))
        (stepSuccState st i m (out callIdx) ((usg callIdx).getD ⟨0, 0⟩)) (callIdx + 1)
        fin' calls' sleeps'
        (fun m' hm' => hv m' (by simp [hm']))
        hst
        (fun j => by
          have h := hf (1 + j)
          rw [← Nat.add_assoc] at h
          exact h)
        hpre hat (by omega)
        (by
          simp only [List.length_cons] at hlt
          omega)
        (by simp [stepSuccState, hrun])
        hR
      cases heq
      have htake : (m :: rest).take (i0 - i) = m :: rest.take (i0 - (i + 1)) := by
        have h : i0 - i = (i0 - (i + 1)) + 1 := by omega
        rw [h]
        rfl
      refine ⟨h1, h2, ?_, ?_, ?_⟩
      · rw [h3]
        simp [stepSuccState]
      · rw [h4, htake]
        simp [stepSuccState, successResults]
      · rw [h5, htake]
        simp [successCalls]

theorem find?_invalid_none (modules : List Module)
    (hv : ∀ m ∈ modules, invalidModule m = false) :
    modules.find? invalidModule = none :=
  List.find?_eq_none.mpr (fun m hm => by simp [hv m hm])

/-- `startWorkflow` from index 0 on a non-running store with all modules
valid: it enters Running on the fresh state and hands over to the loop. -/
theorem startWorkflow_zero (storage : String → Option String) (fetch : Nat → FetchResp)
    (stopReq : Nat → Bool) (st0 : WorkflowState) (modules : List Module)
    (fin : WorkflowState) (calls : List (Nat × CallRec)) (sleeps : List Nat)
    (hr : st0.isRunning = false)
    (hv : ∀ m ∈ modules, invalidModule m = false)
    (hrl : runLoop storage fetch stopReq modules 0 none
      ⟨true, 0, [], none, -1, initAgentStatus modules 0⟩ 0 = (fin, calls, sleeps)) :
    startWorkflow storage fetch stopReq st0 modules 0 = ⟨fin, calls, sleeps, true⟩ := by
  unfold startWorkflow
  rw [find?_invalid_none modules hv]
  simp only [hr, Bool.false_eq_true, if_false]
  simp only [gt_iff_lt, Nat.lt_irrefl, if_false, List.drop_zero, Nat.cast_zero]
  rw [hrl]

/-! ## Claim theorems -/

/-- **C10**: calling `startWorkflow` while a run is already active is a
complete silent no-op — the outcome carries the store state unchanged in
every field, no fetch call, no sleep, and the run is never entered, so no
error or rejection is surfaced. -/
theorem C10_start_while_running_noop (storage : String → Option String)
    (fetch : Nat → FetchResp) (stopReq : Nat → Bool) (st0 : WorkflowState)
    (modules : List Module) (startFromIndex : Nat)
    (hr : st0.isRunning = true) :
    startWorkflow storage fetch stopReq st0 modules startFromIndex
      = ⟨st0, [], [], false⟩ := by
  unfold startWorkflow
  simp [hr]

/-- Witness for C10 at a concrete running state. -/
theorem C10_start_while_running_noop_witness :
    startWorkflow (fun _ => some "KEY") (fun _ => FetchResp.ok "OUT" none) noStop
      ⟨true, 0, [], none, -1, fun _ => none⟩
      [⟨"a0", "T0", "P0", some "anthropic", some "m0"⟩] 0
      = ⟨⟨true, 0, [], none, -1, fun _ => none⟩, [], [], false⟩ :=
  C10_start_while_running_noop (fun _ => some "KEY") (fun _ => FetchResp.ok "OUT" none) noStop
    ⟨true, 0, [], none, -1, fun _ => none⟩
    [⟨"a0", "T0", "P0", some "anthropic", some "m0"⟩] 0 rfl

/-- **C2**: with every adapter call succeeding, a run from index 0 over `n`
agents issues exactly `n` fetch calls; the `j`-th call belongs to agent `j`
(increasing order); and for `j+1 < n` the prompt of call `j+1` contains the
output text returned by call `j` as a substring. -/
theorem C2_sequencing (storage : String → Option String) (fetch : Nat → FetchResp)
    (out : Nat → String) (usg : Nat → Option Usage) (st0 : WorkflowState)
    (modules : List Module)
    (hv : ∀ m ∈ modules, invalidModule m = false)
    (hst : ∀ kn, jsTruthy (storage kn) = true)
    (hf : ∀ j, fetch j = FetchResp.ok (out j) (usg j))
    (hr : st0.isRunning = false) :
    (startWorkflow storage fetch noStop st0 modules 0).calls.length = modules.length
    ∧ (∀ j p, (startWorkflow storage fetch noStop st0 modules 0).calls.get? j = some p
        → p.1 = j)
    ∧ (∀ j, j + 1 < modules.length →
        ∃ p, (startWorkflow storage fetch noStop st0 modules 0).calls.get? (j + 1) = some p
          ∧ strIncludes p.2.prompt (out j) = true) := by
  rcases hL : runLoop storage fetch noStop modules 0 none
    ⟨true, 0, [], none, -1, initAgentStatus modules 0⟩ 0 with ⟨fin, calls, sleeps⟩
  rw [startWorkflow_zero storage fetch noStop st0 modules fin calls sleeps hr hv hL]
  obtain ⟨_, _, _, _, hcalls, _⟩ := runLoop_success_char storage fetch noStop out usg
    modules 0 none ⟨true, 0, [], none, -1, initAgentStatus modules 0⟩ 0 fin calls sleeps
    hv hst (fun j => by simpa using hf j) (fun j => rfl) rfl hL
  subst hcalls
  refine ⟨?_, ?_, ?_⟩
  · simpa using successCalls_length storage out modules 0 0 none
  · intro j p hp
    by_cases hj : j < modules.length
    · rw [successCalls_get storage out modules 0 0 none j hj] at hp
      cases hp
      simp
    · rw [List.get?_eq_none.mpr] at hp
      · cases hp
      · rw [successCalls_length]
        omega
  · intro j hj
    rw [successCalls_get storage out modules 0 0 none (j + 1) hj]
    refine ⟨_, rfl, ?_⟩
    simp only [Nat.succ_ne_zero, if_false, Nat.zero_add, Nat.add_sub_cancel]
    simpa [mkCallRec] using buildPrompt_includes (modules.get ⟨j + 1, hj⟩).prompt (out j)

/-! Concrete fixtures for witnesses. -/

/-- A sessionStorage with every key configured. -/
def wStorage : String → Option String := fun _ => some "KEY"

/-- An idle store state. -/
def wIdle : WorkflowState := ⟨false, -1, [], none, -1, fun _ => none⟩

/-- A three-agent workflow, all fully configured. -/
def wModules : List Module :=
  [⟨"a0", "T0", "P0", some "anthropic", some "m0"⟩,
   ⟨"a1", "T1", "P1", some "openai", some "m1"⟩,
   ⟨"a2", "T2", "P2", some "anthropic", some "m2"⟩]

/-- Outputs of the stubbed adapter. -/
def wOut : Nat → String := fun j => "OUT" ++ toString j

/-- Usage payloads of the stubbed adapter. -/
def wUsg : Nat → Option Usage := fun _ => some ⟨1, 2⟩

/-- A stub on which every call succeeds. -/
def wOkFetch : Nat → FetchResp := fun j => FetchResp.ok (wOut j) (wUsg j)

/-- A stub that succeeds on call 0 and fails non-retryably on call 1. -/
def wBadFetch : Nat → FetchResp := fun j =>
  if j < 1 then FetchResp.ok (wOut j) (wUsg j)
  else FetchResp.httpError 500 (some "boom") "Internal Server Error"

/-- Witness for C2 on the three-agent workflow with an all-success stub. -/
theorem C2_sequencing_witness :
    (startWorkflow wStorage wOkFetch noStop wIdle wModules 0).calls.length = wModules.length
    ∧ (∀ j p, (startWorkflow wStorage wOkFetch noStop wIdle wModules 0).calls.get? j = some p
        → p.1 = j)
    ∧ (∀ j, j + 1 < wModules.length →
        ∃ p, (startWorkflow wStorage wOkFetch noStop wIdle wModules 0).calls.get? (j + 1) = some p
          ∧ strIncludes p.2.prompt (wOut j) = true) :=
  C2_sequencing wStorage wOkFetch wOut wUsg wIdle wModules
    (by decide) (fun _ => rfl) (fun _ => rfl) rfl

/-- **C1**: if the stub agrees with a fully successful stub on calls
`0 ... k-1` and fails non-retryably on call `k` (a non-429 status whose
error message does not contain `"fetch"`), then after the run the results
list has length exactly `k`, equals the first `k` rows of the fully
successful run, `failedAgentIndex` is `k`, the run error is set (to the
failing module's title followed by the message), and `isRunning` is false. -/
theorem C1_partial_preservation (storage : String → Option String)
    (fetchGood fetchBad : Nat → FetchResp) (out : Nat → String) (usg : Nat → Option Usage)
    (st0 : WorkflowState) (modules : List Module) (mk : Module) (k status : Nat)
    (em stx : String)
    (hmk : modules.get? k = some mk)
    (hv : ∀ m ∈ modules, invalidModule m = false)
    (hst : ∀ kn, jsTruthy (storage kn) = true)
    (hgood : ∀ j, fetchGood j = FetchResp.ok (out j) (usg j))
    (hagree : ∀ j, j < k → fetchBad j = FetchResp.ok (out j) (usg j))
    (hbad : fetchBad k = FetchResp.httpError status (some em) stx)
    (h429 : status ≠ 429)
    (hfm : strIncludes em "fetch" = false)
    (hem : em ≠ "")
    (hr : st0.isRunning = false) :
    (startWorkflow storage fetchBad noStop st0 modules 0).final.results.length = k
    ∧ (startWorkflow storage fetchBad noStop st0 modules 0).final.results
        = (startWorkflow storage fetchGood noStop st0 modules 0).final.results.take k
    ∧ (startWorkflow storage fetchBad noStop st0 modules 0).final.failedAgentIndex = (k : Int)
    ∧ (startWorkflow storage fetchBad noStop st0 modules 0).final.error
        = some (mk.title ++ ": " ++ em)
    ∧ (startWorkflow storage fetchBad noStop st0 modules 0).final.isRunning = false := by
  have hklt : k < modules.length := (List.get?_eq_some.mp hmk).1
  rcases hB : runLoop storage fetchBad noStop modules 0 none
    ⟨true, 0, [], none, -1, initAgentStatus modules 0⟩ 0 with ⟨finB, callsB, sleepsB⟩
  rcases hG : runLoop storage fetchGood noStop modules 0 none
    ⟨true, 0, [], none, -1, initAgentStatus modules 0⟩ 0 with ⟨finG, callsG, sleepsG⟩
  rw [startWorkflow_zero storage fetchBad noStop st0 modules finB callsB sleepsB hr hv hB,
    startWorkflow_zero storage fetchGood noStop st0 modules finG callsG sleepsG hr hv hG]
  obtain ⟨hBres, hBrun, hBerr, hBfail⟩ := runLoop_fail_char storage fetchBad noStop out usg
    status em stx k modules mk 0 none ⟨true, 0, [], none, -1, initAgentStatus modules 0⟩ 0
    finB callsB sleepsB hmk hv hst
    (fun j hj => by simpa using hagree j hj)
    (by simpa using hbad)
    h429 hfm hem (fun j => rfl) rfl hB
  obtain ⟨hGres, _, _, _, _, _⟩ := runLoop_success_char storage fetchGood noStop out usg
    modules 0 none ⟨true, 0, [], none, -1, initAgentStatus modules 0⟩ 0
    finG callsG sleepsG hv hst (fun j => by simpa using hgood j) (fun j => rfl) rfl hG
  refine ⟨?_, ?_, ?_, ?_, ?_⟩
  · rw [hBres]
    simp [successResults_length, hklt.le]
  · rw [hBres, hGres]
    simp [successResults_take]
  · rw [hBfail]
    simp
  · exact hBerr
  · exact hBrun

/-- Witness for C1: agent 1 of the three-agent workflow fails with a 500. -/
theorem C1_partial_preservation_witness :
    (startWorkflow wStorage wBadFetch noStop wIdle wModules 0).final.results.length = 1
    ∧ (startWorkflow wStorage wBadFetch noStop wIdle wModules 0).final.results
        = (startWorkflow wStorage wOkFetch noStop wIdle wModules 0).final.results.take 1
    ∧ (startWorkflow wStorage wBadFetch noStop wIdle wModules 0).final.failedAgentIndex = (1 : Int)
    ∧ (startWorkflow wStorage wBadFetch noStop wIdle wModules 0).final.error
        = some ((⟨"a1", "T1", "P1", some "openai", some "m1"⟩ : Module).title ++ ": " ++ "boom")
    ∧ (startWorkflow wStorage wBadFetch noStop wIdle wModules 0).final.isRunning = false :=
  C1_partial_preservation wStorage wOkFetch wBadFetch wOut wUsg wIdle wModules
    ⟨"a1", "T1", "P1", some "openai", some "m1"⟩ 1 500 "boom" "Internal Server Error"
    rfl (by decide) (fun _ => rfl) (fun _ => rfl)
    (fun j hj => by
      have hj0 : j = 0 := by omega
      subst hj0
      rfl)
    rfl (by decide) (by decide) (by decide) rfl

/-- **C7**: if a cancellation request arrives before iteration `i0 < n`
checks the running flag (and every fetch would succeed), the run ends with
`isRunning = false`, the run error set to the user-cancellation marker,
exactly `i0` fetch calls issued — none of them for an agent at index `≥ i0`
— and `failedAgentIndex` is not the cancelled index (it stays `-1`). -/
theorem C7_cancellation (storage : String → Option String) (fetch : Nat → FetchResp)
    (stopReq : Nat → Bool) (out : Nat → String) (usg : Nat → Option Usage)
    (st0 : WorkflowState) (modules : List Module) (i0 : Nat)
    (hv : ∀ m ∈ modules, invalidModule m = false)
    (hst : ∀ kn, jsTruthy (storage kn) = true)
    (hf : ∀ j, fetch j = FetchResp.ok (out j) (usg j))
    (hr : st0.isRunning = false)
    (hi0 : i0 < modules.length)
    (hpre : ∀ j, j < i0 → stopReq j = false)
    (hat : stopReq i0 = true) :
    (startWorkflow storage fetch stopReq st0 modules 0).final.isRunning = false
    ∧ (startWorkflow storage fetch stopReq st0 modules 0).final.error
        = some "Workflow stopped by user"
    ∧ (startWorkflow storage fetch stopReq st0 modules 0).calls.length = i0
    ∧ (∀ j p, (startWorkflow storage fetch stopReq st0 modules 0).calls.get? j = some p
        → p.1 < i0)
    ∧ (startWorkflow storage fetch stopReq st0 modules 0).final.failedAgentIndex
        ≠ ((i0 : Nat) : Int) := by
  rcases hL : runLoop storage fetch stopReq modules 0 none
    ⟨true, 0, [], none, -1, initAgentStatus modules 0⟩ 0 with ⟨fin, calls, sleeps⟩
  rw [startWorkflow_zero storage fetch stopReq st0 modules fin calls sleeps hr hv hL]
  obtain ⟨h1, h2, h3, h4, h5⟩ := runLoop_stop_char storage fetch stopReq out usg i0
    modules 0 none ⟨true, 0, [], none, -1, initAgentStatus modules 0⟩ 0 fin calls sleeps
    hv hst (fun j => by simpa using hf j) hpre hat (Nat.zero_le i0) (by simpa using hi0) rfl hL
  have htl : (modules.take (i0 - 0)).length = i0 := by
    simp [List.length_take]
    omega
  refine ⟨h1, h2, ?_, ?_, ?_⟩
  · rw [h5, successCalls_length, htl]
  · intro j p hp
    rw [h5] at hp
    by_cases hj : j < (modules.take (i0 - 0)).length
    · rw [successCalls_get storage out _ 0 0 none j hj] at hp
      cases hp
      simp only [Nat.zero_add]
      omega
    · rw [List.get?_eq_none.mpr] at hp
      · cases hp
      · rw [successCalls_length]
        omega
  · rw [h3]
    intro hcontra
    simp at hcontra

/-- Witness for C7: cancellation requested before iteration 1. -/
theorem C7_cancellation_witness :
    (startWorkflow wStorage wOkFetch (fun j => j == 1) wIdle wModules 0).final.isRunning = false
    ∧ (startWorkflow wStorage wOkFetch (fun j => j == 1) wIdle wModules 0).final.error
        = some "Workflow stopped by user"
    ∧ (startWorkflow wStorage wOkFetch (fun j => j == 1) wIdle wModules 0).calls.length = 1
    ∧ (∀ j p, (startWorkflow wStorage wOkFetch (fun j => j == 1) wIdle wModules 0).calls.get? j
        = some p → p.1 < 1)
    ∧ (startWorkflow wStorage wOkFetch (fun j => j == 1) wIdle wModules 0).final.failedAgentIndex
        ≠ ((1 : Nat) : Int) :=
  C7_cancellation wStorage wOkFetch (fun j => j == 1) wOut wUsg wIdle wModules 1
    (by decide) (fun _ => rfl) (fun _ => rfl) rfl (by decide)
    (fun j hj => by
      have hj0 : j = 0 := by omega
      subst hj0
      rfl)
    rfl

/-- A fully configured module whose provider credential is not in storage. -/
def c6Module : Module := ⟨"a1", "Agent One", "P", some "anthropic", some "m"⟩

/-- **C6 counterexample**: with a single fully configured agent whose
credential is missing, the run *does* transition to Running (the
`set({isRunning: true, ...})` executes before `executeAgent` discovers the
missing key), contradicting the claim that a missing credential keeps the
run from ever entering Running.  No network call is made and the rejection
names the agent, but the run ends Failed at index 0 rather than never
starting. -/
theorem C6_config_error_counterexample :
    (startWorkflow (fun _ => none) (fun _ => FetchResp.ok "OUT" none) noStop
        wIdle [c6Module] 0).enteredRunning = true
    ∧ (startWorkflow (fun _ => none) (fun _ => FetchResp.ok "OUT" none) noStop
        wIdle [c6Module] 0).calls = []
    ∧ (startWorkflow (fun _ => none) (fun _ => FetchResp.ok "OUT" none) noStop
        wIdle [c6Module] 0).final.error = some "Agent One: API key not found for anthropic"
    ∧ (startWorkflow (fun _ => none) (fun _ => FetchResp.ok "OUT" none) noStop
        wIdle [c6Module] 0).final.failedAgentIndex = 0
    ∧ (startWorkflow (fun _ => none) (fun _ => FetchResp.ok "OUT" none) noStop
        wIdle [c6Module] 0).final.isRunning = false :=
  ⟨rfl, rfl, rfl, rfl, rfl⟩

/-- **C6 amended**: a missing provider/model is detected before any network
call, the run never transitions to Running, and the rejection names the
offending agent (first conjunct).  A missing credential on the agent at any
index `k` is also detected before any network call for that agent and the
surfaced error also names the agent, but the run *does* transition to
Running first: the agents before `k` execute (one fetch call each, none
with an index `≥ k`), and the run then ends Failed with `failedAgentIndex`
set to `k` (second conjunct). -/
theorem C6_config_error_amended :
    (∀ (storage : String → Option String) (fetch : Nat → FetchResp) (stopReq : Nat → Bool)
      (st0 : WorkflowState) (modules : List Module) (m : Module),
      st0.isRunning = false →
      modules.find? invalidModule = some m →
      (startWorkflow storage fetch stopReq st0 modules 0).enteredRunning = false
      ∧ (startWorkflow storage fetch stopReq st0 modules 0).calls = []
      ∧ (startWorkflow storage fetch stopReq st0 modules 0).final.error
          = some (m.title ++ ": Provider and model must be selected")
      ∧ (startWorkflow storage fetch stopReq st0 modules 0).final.isRunning = false)
    ∧ (∀ (storage : String → Option String) (fetch : Nat → FetchResp) (stopReq : Nat → Bool)
      (st0 : WorkflowState) (modules : List Module) (mk : Module) (k : Nat)
      (out : Nat → String) (usg : Nat → Option Usage),
      st0.isRunning = false →
      modules.get? k = some mk →
      (∀ m ∈ modules, invalidModule m = false) →
      (∀ m ∈ modules.take k, jsTruthy (storage (apiKeyName (m.provider.getD ""))) = true) →
      jsTruthy (storage (apiKeyName (mk.provider.getD ""))) = false →
      (∀ j, j < k → fetch j = FetchResp.ok (out j) (usg j)) →
      (∀ j, stopReq j = false) →
      (startWorkflow storage fetch stopReq st0 modules 0).enteredRunning = true
      ∧ (startWorkflow storage fetch stopReq st0 modules 0).calls.length = k
      ∧ (∀ j p, (startWorkflow storage fetch stopReq st0 modules 0).calls.get? j = some p
          → p.1 < k)
      ∧ (startWorkflow storage fetch stopReq st0 modules 0).final.error
          = some (mk.title ++ ": " ++ ("API key not found for " ++ mk.provider.getD ""))
      ∧ (startWorkflow storage fetch stopReq st0 modules 0).final.failedAgentIndex = (k : Int)
      ∧ (startWorkflow storage fetch stopReq st0 modules 0).final.isRunning = false) := by
  constructor
  · intro storage fetch stopReq st0 modules m hr hfound
    unfold startWorkflow
    simp [hr, hfound]
  · intro storage fetch stopReq st0 modules mk k out usg hr hmk hv hkpre hnokey hf hstop
    have hklt : k < modules.length := (List.get?_eq_some.mp hmk).1
    rcases hL : runLoop storage fetch stopReq modules 0 none
      ⟨true, 0, [], none, -1, initAgentStatus modules 0⟩ 0 with ⟨fin, calls, sleeps⟩
    rw [startWorkflow_zero storage fetch stopReq st0 modules fin calls sleeps hr hv hL]
    obtain ⟨h1, h2, h3, h4, h5⟩ := runLoop_noKey_char storage fetch stopReq out usg
      k modules mk 0 none ⟨true, 0, [], none, -1, initAgentStatus modules 0⟩ 0
      fin calls sleeps hmk hv hkpre hnokey
      (fun j hj => by simpa using hf j hj) hstop rfl hL
    have htl : (modules.take k).length = k := by
      simp [List.length_take]
      omega
    refine ⟨rfl, ?_, ?_, h3, ?_, h2⟩
    · rw [h5, successCalls_length, htl]
    · intro j p hp
      rw [h5] at hp
      by_cases hj : j < (modules.take k).length
      · rw [successCalls_get storage out _ 0 0 none j hj] at hp
        cases hp
        simp only [Nat.zero_add]
        omega
      · rw [List.get?_eq_none.mpr] at hp
        · cases hp
        · rw [successCalls_length]
          omega
    · rw [h4]
      simp

/-- A sessionStorage with only the anthropic key configured. -/
def c6Storage : String → Option String := fun kn =>
  if kn == "anthropic_api_key" then some "KEY" else none

/-- Witness for the amended C6: part one at a workflow whose module lacks a
model; part two at the three-agent workflow whose openai credential is
missing, failing at index 1 after agent 0 ran. -/
theorem C6_config_error_amended_witness :
    ((startWorkflow wStorage wOkFetch noStop wIdle
        [⟨"b0", "U0", "Q0", some "anthropic", none⟩] 0).enteredRunning = false
      ∧ (startWorkflow wStorage wOkFetch noStop wIdle
          [⟨"b0", "U0", "Q0", some "anthropic", none⟩] 0).calls = []
      ∧ (startWorkflow wStorage wOkFetch noStop wIdle
          [⟨"b0", "U0", "Q0", some "anthropic", none⟩] 0).final.error
          = some ("U0" ++ ": Provider and model must be selected")
      ∧ (startWorkflow wStorage wOkFetch noStop wIdle
          [⟨"b0", "U0", "Q0", some "anthropic", none⟩] 0).final.isRunning = false)
    ∧ ((startWorkflow c6Storage wOkFetch noStop wIdle wModules 0).enteredRunning = true
      ∧ (startWorkflow c6Storage wOkFetch noStop wIdle wModules 0).calls.length = 1
      ∧ (∀ j p, (startWorkflow c6Storage wOkFetch noStop wIdle wModules 0).calls.get? j
          = some p → p.1 < 1)
      ∧ (startWorkflow c6Storage wOkFetch noStop wIdle wModules 0).final.error
          = some ("T1" ++ ": " ++ ("API key not found for " ++ "openai"))
      ∧ (startWorkflow c6Storage wOkFetch noStop wIdle wModules 0).final.failedAgentIndex
          = ((1 : Nat) : Int)
      ∧ (startWorkflow c6Storage wOkFetch noStop wIdle wModules 0).final.isRunning = false) :=
  ⟨C6_config_error_amended.1 wStorage wOkFetch noStop wIdle
      [⟨"b0", "U0", "Q0", some "anthropic", none⟩] ⟨"b0", "U0", "Q0", some "anthropic", none⟩
      rfl rfl,
    C6_config_error_amended.2 c6Storage wOkFetch noStop wIdle wModules
      ⟨"a1", "T1", "P1", some "openai", some "m1"⟩ 1 wOut wUsg
      rfl rfl (by decide) (by decide) rfl
      (fun j hj => rfl) (fun j => rfl)⟩

/-- In `a ++ b ++ c ++ d`, the block `b` appears (at position `a.length`)
strictly before the block `d` (at position `(a ++ b ++ c).length`). -/
theorem appearsBefore_of_decomp (a b c d : List Char) :
    appearsBefore (a ++ b ++ c ++ d) b d = true := by
  have hlen : (a ++ b ++ c ++ d).length
      = a.length + b.length + c.length + d.length := by
    simp
    omega
  unfold appearsBefore
  rw [List.any_eq_true]
  refine ⟨a.length, ?_, ?_⟩
  · rw [List.mem_range]
    omega
  · rw [Bool.and_eq_true]
    constructor
    · unfold occursAt
      have hd : (a ++ b ++ c ++ d).drop a.length = b ++ (c ++ d) := by
        have h1 : a ++ b ++ c ++ d = a ++ (b ++ (c ++ d)) := by
          simp [List.append_assoc]
        rw [h1]
        exact List.drop_left a (b ++ (c ++ d))
      rw [hd]
      exact isPrefixOf_self_append b (c ++ d)
    · rw [List.any_eq_true]
      refine ⟨a.length + b.length + c.length, ?_, ?_⟩
      · rw [List.mem_range]
        omega
      · rw [Bool.and_eq_true]
        refine ⟨decide_eq_true (by omega), ?_⟩
        unfold occursAt
        have hd : (a ++ b ++ c ++ d).drop (a.length + b.length + c.length) = d := by
          have h1 : a ++ b ++ c ++ d = (a ++ b ++ c) ++ d := by
            simp [List.append_assoc]
          have h2 : (a ++ b ++ c).length = a.length + b.length + c.length := by
            simp
            omega
          rw [h1, ← h2]
          exact List.drop_left (a ++ b ++ c) d
        rw [hd]
        have hself := isPrefixOf_self_append d []
        rw [List.append_nil] at hself
        exact hself

/-- **C3 counterexample**: for an agent with role text `"xyz"` and previous
output `"qwv"`, the prompt the code builds is
`"CONTENT TO PROCESS: qwv\n\nYOUR ROLE: xyz"`: the role text does *not*
appear before the content (first conjunct refutes the claimed order), while
the content does appear before the role (second conjunct). -/
theorem C3_prompt_order_counterexample :
    strAppearsBefore (buildPrompt "xyz" (some "qwv")) "xyz" "qwv" = false
    ∧ strAppearsBefore (buildPrompt "xyz" (some "qwv")) "qwv" "xyz" = true := by
  constructor
  · decide
  · decide

/-- **C3 amended**: for every agent at index `k > 0` whose previous output
is non-empty, the prompt sent to the provider is exactly the previous
output (the content to process) first, then the agent's own role prompt:
`"CONTENT TO PROCESS: " ++ prev ++ "\n\nYOUR ROLE: " ++ role`, so the
content appears before the role text, not the other way round.  (An empty
previous output is falsy in JS and takes the `USER INPUT` branch, which
contains the role text only.) -/
theorem C3_prompt_order_amended (role prev : String) (h : prev ≠ "") :
    buildPrompt role (some prev)
      = "CONTENT TO PROCESS: " ++ prev ++ "\n\nYOUR ROLE: " ++ role
    ∧ strAppearsBefore (buildPrompt role (some prev)) prev role = true := by
  have ht : jsTruthy (some prev) = true := by
    simp [jsTruthy, h]
  have heq : buildPrompt role (some prev)
      = "CONTENT TO PROCESS: " ++ prev ++ "\n\nYOUR ROLE: " ++ role := by
    unfold buildPrompt
    rw [ht]
    simp
  refine ⟨heq, ?_⟩
  rw [heq]
  unfold strAppearsBefore
  have hdata : ("CONTENT TO PROCESS: " ++ prev ++ "\n\nYOUR ROLE: " ++ role).data
      = "CONTENT TO PROCESS: ".data ++ prev.data ++ "\n\nYOUR ROLE: ".data ++ role.data := by
    simp [String.data_append]
  rw [hdata]
  exact appearsBefore_of_decomp _ _ _ _

/-- Witness for the amended C3. -/
theorem C3_prompt_order_amended_witness :
    buildPrompt "xyz" (some "qwv")
      = "CONTENT TO PROCESS: " ++ "qwv" ++ "\n\nYOUR ROLE: " ++ "xyz"
    ∧ strAppearsBefore (buildPrompt "xyz" (some "qwv")) "qwv" "xyz" = true :=
  C3_prompt_order_amended "xyz" "qwv" (by decide)

/-- A fully configured module for retry scenarios. -/
def c4Module : Module := ⟨"a0", "T0", "P0", some "anthropic", some "m0"⟩

/-- **C4 counterexample**: a *non-429* HTTP error (status 500) whose error
payload message happens to contain the word `"fetch"` is not surfaced
immediately: the `throw` inside the `try` block lands in the same `catch`
that implements network-error retries, whose test is
`error.message.includes('fetch')`, so the agent is retried three times —
four fetch calls and three backoff sleeps — before failing, contradicting
the claim that any error other than a 429 or a transport failure surfaces
immediately with no retry. -/
theorem C4_retry_counterexample :
    (executeAgentEntry wStorage
        (fun _ => FetchResp.httpError 500 (some "fetch failed") "Internal Server Error")
        c4Module none 0).calls.length = 4
    ∧ ¬ ((executeAgentEntry wStorage
        (fun _ => FetchResp.httpError 500 (some "fetch failed") "Internal Server Error")
        c4Module none 0).calls.length = 1)
    ∧ (executeAgentEntry wStorage
        (fun _ => FetchResp.httpError 500 (some "fetch failed") "Internal Server Error")
        c4Module none 0).result = Except.error "fetch failed"
    ∧ (executeAgentEntry wStorage
        (fun _ => FetchResp.httpError 500 (some "fetch failed") "Internal Server Error")
        c4Module none 0).sleeps = [2000, 4000, 8000] := by
  refine ⟨by decide, by decide, rfl, by decide⟩

theorem httpErrMsg_429_none (s : String) : httpErrMsg 429 none s = "HTTP 429: " ++ s := rfl

/-- **C4 amended**: (1) if the endpoint responds 429 exactly `MAX_RETRIES`
(3) times and then succeeds, `executeAgent` succeeds after exactly
`MAX_RETRIES + 1 = 4` calls, sleeping `RETRY_DELAY_MS * 2^retryCount`
before the retry numbered `retryCount`; (2) if it responds 429 four times
and the synthesized message of the last response does not contain
`"fetch"`, it fails terminally after exactly 4 calls with no fifth;
(3) a non-429 HTTP error whose message does not contain `"fetch"` surfaces
immediately with a single call and no sleep; (4) a thrown transport error
whose message contains `"fetch"` (as browser fetch failures do) is
retried: after one backoff sleep a second, successful call completes the
agent. -/
theorem C4_retry_amended :
    (∀ (storage : String → Option String) (fetch : Nat → FetchResp) (m : Module)
      (prev : Option String) (ef : Nat → Option String) (stx : Nat → String)
      (r : String) (u : Option Usage),
      invalidModule m = false →
      jsTruthy (storage (apiKeyName (m.provider.getD ""))) = true →
      fetch 0 = FetchResp.httpError 429 (ef 0) (stx 0) →
      fetch 1 = FetchResp.httpError 429 (ef 1) (stx 1) →
      fetch 2 = FetchResp.httpError 429 (ef 2) (stx 2) →
      fetch 3 = FetchResp.ok r u →
      executeAgentEntry storage fetch m prev 0
        = ⟨.ok (r, u.getD ⟨0, 0⟩),
            [mkCallRec storage m prev, mkCallRec storage m prev,
              mkCallRec storage m prev, mkCallRec storage m prev],
            [RETRY_DELAY_MS * 2 ^ 0, RETRY_DELAY_MS * 2 ^ 1, RETRY_DELAY_MS * 2 ^ 2]⟩)
    ∧ (∀ (storage : String → Option String) (fetch : Nat → FetchResp) (m : Module)
      (prev : Option String) (stx : Nat → String),
      invalidModule m = false →
      jsTruthy (storage (apiKeyName (m.provider.getD ""))) = true →
      fetch 0 = FetchResp.httpError 429 none (stx 0) →
      fetch 1 = FetchResp.httpError 429 none (stx 1) →
      fetch 2 = FetchResp.httpError 429 none (stx 2) →
      fetch 3 = FetchResp.httpError 429 none (stx 3) →
      strIncludes ("HTTP 429: " ++ stx 3) "fetch" = false →
      executeAgentEntry storage fetch m prev 0
        = ⟨.error ("HTTP 429: " ++ stx 3),
            [mkCallRec storage m prev, mkCallRec storage m prev,
              mkCallRec storage m prev, mkCallRec storage m prev],
            [RETRY_DELAY_MS * 2 ^ 0, RETRY_DELAY_MS * 2 ^ 1, RETRY_DELAY_MS * 2 ^ 2]⟩)
    ∧ (∀ (storage : String → Option String) (fetch : Nat → FetchResp) (m : Module)
      (prev : Option String) (status : Nat) (em stx : String),
      invalidModule m = false →
      jsTruthy (storage (apiKeyName (m.provider.getD ""))) = true →
      fetch 0 = FetchResp.httpError status (some em) stx →
      status ≠ 429 →
      strIncludes em "fetch" = false →
      em ≠ "" →
      executeAgentEntry storage fetch m prev 0
        = ⟨.error em, [mkCallRec storage m prev], []⟩)
    ∧ (∀ (storage : String → Option String) (fetch : Nat → FetchResp) (m : Module)
      (prev : Option String) (nm : String) (r : String) (u : Option Usage),
      invalidModule m = false →
      jsTruthy (storage (apiKeyName (m.provider.getD ""))) = true →
      fetch 0 = FetchResp.netError nm →
      strIncludes nm "fetch" = true →
      fetch 1 = FetchResp.ok r u →
      executeAgentEntry storage fetch m prev 0
        = ⟨.ok (r, u.getD ⟨0, 0⟩),
            [mkCallRec storage m prev, mkCallRec storage m prev],
            [RETRY_DELAY_MS * 2 ^ 0]⟩) := by
  refine ⟨?_, ?_, ?_, ?_⟩
  · intro storage fetch m prev ef stx r u hm hk hf0 hf1 hf2 hf3
    have h3 := executeAgent_ok storage fetch m prev 1 3 3 r u hm hk hf3
    have h2 : executeAgent storage fetch m prev 2 2 2
        = ⟨.ok (r, u.getD ⟨0, 0⟩),
            [mkCallRec storage m prev, mkCallRec storage m prev],
            [RETRY_DELAY_MS * 2 ^ 2]⟩ := by
      unfold executeAgent
      rw [hf2]
      simp [hm, hk, h3, MAX_RETRIES, mkCallRec]
    have h1 : executeAgent storage fetch m prev 3 1 1
        = ⟨.ok (r, u.getD ⟨0, 0⟩),
            [mkCallRec storage m prev, mkCallRec storage m prev, mkCallRec storage m prev],
            [RETRY_DELAY_MS * 2 ^ 1, RETRY_DELAY_MS * 2 ^ 2]⟩ := by
      unfold executeAgent
      rw [hf1]
      simp [hm, hk, h2, MAX_RETRIES, mkCallRec]
    unfold executeAgentEntry executeAgent
    rw [hf0]
    simp [hm, hk, h1, MAX_RETRIES, mkCallRec]
  · intro storage fetch m prev stx hm hk hf0 hf1 hf2 hf3 hfm
    have h3 : executeAgent storage fetch m prev 1 3 3
        = ⟨.error ("HTTP 429: " ++ stx 3), [mkCallRec storage m prev], []⟩ := by
      unfold executeAgent
      rw [hf3]
      simp [hm, hk, MAX_RETRIES, httpErrMsg_429_none, hfm, mkCallRec]
    have h2 : executeAgent storage fetch m prev 2 2 2
        = ⟨.error ("HTTP 429: " ++ stx 3),
            [mkCallRec storage m prev, mkCallRec storage m prev],
            [RETRY_DELAY_MS * 2 ^ 2]⟩ := by
      unfold executeAgent
      rw [hf2]
      simp [hm, hk, h3, MAX_RETRIES, hfm, mkCallRec]
    have h1 : executeAgent storage fetch m prev 3 1 1
        = ⟨.error ("HTTP 429: " ++ stx 3),
            [mkCallRec storage m prev, mkCallRec storage m prev, mkCallRec storage m prev],
            [RETRY_DELAY_MS * 2 ^ 1, RETRY_DELAY_MS * 2 ^ 2]⟩ := by
      unfold executeAgent
      rw [hf1]
      simp [hm, hk, h2, MAX_RETRIES, hfm, mkCallRec]
    unfold executeAgentEntry executeAgent
    rw [hf0]
    simp [hm, hk, h1, MAX_RETRIES, hfm, mkCallRec]
  · intro storage fetch m prev status em stx hm hk hf0 h429 hfm hem
    exact executeAgent_fail_nonretry storage fetch m prev _ _ _ _ _ _ hm hk hf0 h429 hfm hem
  · intro storage fetch m prev nm r u hm hk hf0 hnm hf1
    have h1 := executeAgent_ok storage fetch m prev 3 1 1 r u hm hk hf1
    unfold executeAgentEntry executeAgent
    rw [hf0]
    simp [hm, hk, h1, hnm, MAX_RETRIES, mkCallRec]

/-- Stub: 429 three times, then success. -/
def w429ThenOk : Nat → FetchResp := fun j =>
  if j < 3 then FetchResp.httpError 429 none "Too Many Requests"
  else FetchResp.ok "OUT" (some ⟨1, 2⟩)

/-- Stub: 429 on every call. -/
def w429Always : Nat → FetchResp := fun _ =>
  FetchResp.httpError 429 none "Too Many Requests"

/-- Stub: a non-retryable 500. -/
def w500 : Nat → FetchResp := fun _ =>
  FetchResp.httpError 500 (some "boom") "Internal Server Error"

/-- Stub: a transport failure, then success. -/
def wNetThenOk : Nat → FetchResp := fun j =>
  if j = 0 then FetchResp.netError "Failed to fetch"
  else FetchResp.ok "OUT" (some ⟨1, 2⟩)

/-- Witness for the amended C4, one concrete run per scenario. -/
theorem C4_retry_amended_witness :
    executeAgentEntry wStorage w429ThenOk c4Module none 0
      = ⟨.ok ("OUT", (some (⟨1, 2⟩ : Usage)).getD ⟨0, 0⟩),
          [mkCallRec wStorage c4Module none, mkCallRec wStorage c4Module none,
            mkCallRec wStorage c4Module none, mkCallRec wStorage c4Module none],
          [RETRY_DELAY_MS * 2 ^ 0, RETRY_DELAY_MS * 2 ^ 1, RETRY_DELAY_MS * 2 ^ 2]⟩
    ∧ executeAgentEntry wStorage w429Always c4Module none 0
      = ⟨.error ("HTTP 429: " ++ "Too Many Requests"),
          [mkCallRec wStorage c4Module none, mkCallRec wStorage c4Module none,
            mkCallRec wStorage c4Module none, mkCallRec wStorage c4Module none],
          [RETRY_DELAY_MS * 2 ^ 0, RETRY_DELAY_MS * 2 ^ 1, RETRY_DELAY_MS * 2 ^ 2]⟩
    ∧ executeAgentEntry wStorage w500 c4Module none 0
      = ⟨.error "boom", [mkCallRec wStorage c4Module none], []⟩
    ∧ executeAgentEntry wStorage wNetThenOk c4Module none 0
      = ⟨.ok ("OUT", (some (⟨1, 2⟩ : Usage)).getD ⟨0, 0⟩),
          [mkCallRec wStorage c4Module none, mkCallRec wStorage c4Module none],
          [RETRY_DELAY_MS * 2 ^ 0]⟩ :=
  ⟨C4_retry_amended.1 wStorage w429ThenOk c4Module none (fun _ => none)
      (fun _ => "Too Many Requests") "OUT" (some ⟨1, 2⟩)
      rfl rfl rfl rfl rfl rfl,
    C4_retry_amended.2.1 wStorage w429Always c4Module none (fun _ => "Too Many Requests")
      rfl rfl rfl rfl rfl rfl (by decide),
    C4_retry_amended.2.2.1 wStorage w500 c4Module none 500 "boom" "Internal Server Error"
      rfl rfl rfl (by decide) (by decide) (by decide),
    C4_retry_amended.2.2.2 wStorage wNetThenOk c4Module none "Failed to fetch" "OUT"
      (some ⟨1, 2⟩) rfl rfl rfl (by decide) rfl⟩

mutual
/-- Relational specification of one string-rewriting pass over a JSON
template: string leaves are rewritten by `f`, every non-string leaf is
unchanged, and arrays and objects keep exactly their container shape (same
length, same keys in the same order, pointwise related values).  Relating a
template to a rebuilt structure also captures that the original is not
mutated: the embedding is pure, mirroring the source's `map` and
entries-reduce rebuilds. -/
inductive SubstRel (f : String → String) : Json → Json → Prop where
  | str (s : String) : SubstRel f (.str s) (.str (f s))
  | num (n : Int) : SubstRel f (.num n) (.num n)
  | bool (b : Bool) : SubstRel f (.bool b) (.bool b)
  | null : SubstRel f .null .null
  | arr (xs ys : List Json) :
      SubstRelList f xs ys → SubstRel f (.arr xs) (.arr ys)
  | obj (fs gs : List (String × Json)) :
      SubstRelFields f fs gs → SubstRel f (.obj fs) (.obj gs)

/-- `SubstRel`, pointwise over array elements. -/
inductive SubstRelList (f : String → String) : List Json → List Json → Prop where
  | nil : SubstRelList f [] []
  | cons (x y : Json) (xs ys : List Json) :
      SubstRel f x y → SubstRelList f xs ys → SubstRelList f (x :: xs) (y :: ys)

/-- `SubstRel`, pointwise over object fields: keys are preserved. -/
inductive SubstRelFields (f : String → String) :
    List (String × Json) → List (String × Json) → Prop where
  | nil : SubstRelFields f [] []
  | cons (k : String) (v w : Json) (fs gs : List (String × Json)) :
      SubstRel f v w → SubstRelFields f fs gs →
      SubstRelFields f ((k, v) :: fs) ((k, w) :: gs)
end

mutual
/-- `replaceTemplateVars` realizes `SubstRel` with the per-string sequential
substitution as the leaf function. -/
theorem replaceTemplateVars_substRel (vars : List (String × String)) :
    (t : Json) →
      SubstRel (fun s => substituteString s vars) t (replaceTemplateVars t vars)
  | .str s => .str s
  | .num n => .num n
  | .bool b => .bool b
  | .null => .null
  | .arr xs => .arr xs _ (replaceTemplateVarsList_substRel vars xs)
  | .obj fs => .obj fs _ (replaceTemplateVarsFields_substRel vars fs)

/-- Pointwise `SubstRel` for the array branch. -/
theorem replaceTemplateVarsList_substRel (vars : List (String × String)) :
    (xs : List Json) →
      SubstRelList (fun s => substituteString s vars) xs
        (replaceTemplateVarsList xs vars)
  | [] => .nil
  | x :: xs => .cons _ _ _ _ (replaceTemplateVars_substRel vars x)
      (replaceTemplateVarsList_substRel vars xs)

/-- Pointwise `SubstRel` (with key preservation) for the object branch. -/
theorem replaceTemplateVarsFields_substRel (vars : List (String × String)) :
    (fs : List (String × Json)) →
      SubstRelFields (fun s => substituteString s vars) fs
        (replaceTemplateVarsFields fs vars)
  | [] => .nil
  | (k, v) :: fs => .cons k _ _ _ _ (replaceTemplateVars_substRel vars v)
      (replaceTemplateVarsFields_substRel vars fs)
end

/-- A request template with the three placeholders nested in objects and
arrays, plus non-placeholder literals (shaped like the Google AI example in
the source's trailing comment). -/
def c5Template : Json :=
  Json.obj
    [("contents", Json.arr [Json.obj
        [("parts", Json.arr [Json.obj [("text", Json.str "\x7b\x7bprompt\x7d\x7d")]])]]),
     ("model", Json.str "\x7b\x7bmodel\x7d\x7d"),
     ("key", Json.str "\x7b\x7bapi_key\x7d\x7d"),
     ("n", Json.num 5),
     ("stream", Json.bool false)]

/-- **C5 counterexample**: with the substitution map
`{prompt ↦ "\x7b\x7bmodel\x7d\x7d", model ↦ "M", api_key ↦ "K"}` and the
template string `"\x7b\x7bprompt\x7d\x7d"`, the claim mandates that the one
placeholder occurrence be replaced by its corresponding value, leaving
`"\x7b\x7bmodel\x7d\x7d"`; the code instead returns `"M"`, because the
per-key passes run sequentially (prompt, then model, then api_key) and the
model pass rewrites the text the prompt pass just inserted. -/
theorem C5_template_substitution_counterexample :
    replaceTemplateVars (Json.str "\x7b\x7bprompt\x7d\x7d")
        (templateVars "\x7b\x7bmodel\x7d\x7d" "M" "K") = Json.str "M"
    ∧ Json.str "M" ≠ Json.str "\x7b\x7bmodel\x7d\x7d" := by
  constructor
  · rfl
  · intro h
    injection h with h'
    exact absurd h' (by decide)

/-- **C5 amended**: `replaceTemplateVars` returns a new structure with
exactly the same container shape in which every non-string leaf is
unchanged and every string leaf is rewritten by the sequential per-key
JavaScript replacement (one full `String.replace` pass per
`\x7b\x7bkey\x7d\x7d` token, in the order prompt, model, api_key, each pass
rescanning the previous pass's output, each inserted value undergoing the
ECMAScript `$`-substitution of `String.replace`); the original template is
not mutated.  When the substitution values contain neither placeholder
tokens nor `$`, this coincides with replacing every occurrence of each
token by its value, as the concrete nested instance in the second conjunct
shows; the last two conjuncts exhibit the `$`-substitution: a prompt value
`"$&"` re-inserts the matched token, and a model value `"$$"` denotes a
single dollar sign. -/
theorem C5_template_substitution_amended :
    (∀ (t : Json) (p m k : String),
      SubstRel (fun s => substituteString s (templateVars p m k)) t
        (replaceTemplateVars t (templateVars p m k)))
    ∧ replaceTemplateVars c5Template (templateVars "P" "M" "K")
      = Json.obj
          [("contents", Json.arr [Json.obj
              [("parts", Json.arr [Json.obj [("text", Json.str "P")]])]]),
           ("model", Json.str "M"),
           ("key", Json.str "K"),
           ("n", Json.num 5),
           ("stream", Json.bool false)]
    ∧ replaceTemplateVars (Json.str "\x7b\x7bprompt\x7d\x7d") (templateVars "$&" "M" "K")
      = Json.str "\x7b\x7bprompt\x7d\x7d"
    ∧ replaceTemplateVars (Json.str "\x7b\x7bmodel\x7d\x7d") (templateVars "P" "$$" "K")
      = Json.str "$" :=
  ⟨fun t p m k => replaceTemplateVars_substRel (templateVars p m k) t, rfl, rfl, rfl⟩

/-- A custom provider whose request template carries the API key in the
body — a configuration the route explicitly supports via the
`\x7b\x7bapi_key\x7d\x7d` placeholder. -/
def c8Config : ProviderConfig :=
  ⟨"https://api.example.com/v1/complete", some "POST", ⟨"bearer", "Authorization"⟩, [],
    "choices[0].text",
    Json.obj [("model", Json.str "\x7b\x7bmodel\x7d\x7d"),
              ("key", Json.str "\x7b\x7bapi_key\x7d\x7d"),
              ("prompt", Json.str "\x7b\x7bprompt\x7d\x7d")]⟩

/-- A custom provider with the API key templated into the endpoint *and*
query-parameter auth, so the key occurs twice in the final URL. -/
def c8QueryConfig : ProviderConfig :=
  ⟨"https://host/\x7b\x7bapi_key\x7d\x7d/v1", some "POST", ⟨"query", "key"⟩, [],
    "text",
    Json.obj [("body", Json.obj [("prompt", Json.str "\x7b\x7bprompt\x7d\x7d")])]⟩

/-- **C8** (code bug): the route's comment says the request details are
logged "with sensitive data redacted", and the header map and URL are
indeed redacted — but `console.log('With body:', requestBody)` logs the
substituted request body as-is, so whenever the template interpolates
`\x7b\x7bapi_key\x7d\x7d` into the body the credential is logged in
cleartext (first two conjuncts).  The URL redaction is also only partial:
`url.replace(apiKey, '[REDACTED]')` replaces the first occurrence, so a
second occurrence survives in the logged URL (last conjunct).  The header
redaction works as intended (third conjunct). -/
theorem C8_credential_redaction_bug :
    jsonContainsStr (postRequest c8Config "P" "M" "SECRET123").loggedBody "SECRET123" = true
    ∧ (postRequest c8Config "P" "M" "SECRET123").loggedBody
        = Json.obj [("model", Json.str "M"), ("key", Json.str "SECRET123"),
            ("prompt", Json.str "P")]
    ∧ (postRequest c8Config "P" "M" "SECRET123").loggedHeaders
        = [("Content-Type", "application/json"), ("Authorization", "[REDACTED]")]
    ∧ strIncludes (postRequest c8QueryConfig "P" "M" "SECRET123").loggedUrl "SECRET123" = true := by
  refine ⟨by decide, rfl, by decide, by decide⟩

/-- The response body of spec property P6. -/
def wRespBody : Json :=
  Json.obj [("choices", Json.arr
    [Json.obj [("message", Json.obj [("content", Json.str "hello")])]])]

/-- **C9**: extraction walks the configured `responsePath` (dotted field
access and bracket numeric indexing) over the parsed response; a defined
value is returned as the output (second conjunct), and an unresolved path
fails with `"Could not find response at path: <path>"` rather than
silently yielding null/undefined (third conjunct).  The concrete P6
instances: `choices[0].message.content` over the P6 body yields `"hello"`,
and `choices[1].message.content` fails with the specific message. -/
theorem C9_response_extraction :
    extractResponse wRespBody "choices[0].message.content" = Except.ok (Json.str "hello")
    ∧ (∀ (data : Json) (p : String) (v : Json),
        jsonGet data (parsePath p) = some v → extractResponse data p = Except.ok v)
    ∧ (∀ (data : Json) (p : String),
        jsonGet data (parsePath p) = none →
          extractResponse data p = Except.error ("Could not find response at path: " ++ p))
    ∧ extractResponse wRespBody "choices[1].message.content"
      = Except.error "Could not find response at path: choices[1].message.content" := by
  refine ⟨rfl, ?_, ?_, rfl⟩
  · intro data p v h
    unfold extractResponse
    rw [h]
  · intro data p h
    unfold extractResponse
    rw [h]

/-- Witness for C9, applying the quantified conjuncts at concrete inputs. -/
theorem C9_response_extraction_witness :
    extractResponse (Json.obj [("a", Json.str "x")]) "a" = Except.ok (Json.str "x")
    ∧ extractResponse (Json.obj []) "a.b"
      = Except.error ("Could not find response at path: " ++ "a.b") :=
  ⟨C9_response_extraction.2.1 (Json.obj [("a", Json.str "x")]) "a" (Json.str "x") rfl,
    C9_response_extraction.2.2.1 (Json.obj []) "a.b" rfl⟩

end AgentLink
